import Mathlib

/-!
# Verification of the i-am-robot tracking-to-actuation pipeline

Shallow embedding of the hand-tracking → retargeting → IK → commit pipeline:

* `src/systems/WeightedMovingFilter.js` — weighted moving average filter
* `src/systems/HandRetargeting.js`      — `retargetHand`, `RetargetingFilter`
* `src/systems/ImpedanceControl.js`     — `ExponentialSmoother`, `QuaternionSmoother`,
  `SpringDamper`, `HandImpedance`
* `src/systems/CCDIK.js`                — CCD IK solver (current revision)
* earlier CCD revision with regularization / velocity limiting (part_007)
* two-bone analytical IK (part_010)
* the per-tick control loop of the URDFRobot components (part_004 and
  `src/components/URDFRobot.jsx`)

JavaScript numbers are modelled as real numbers; `three.js` vector/quaternion
operations used by the code are embedded following the three.js sources
(including the zero-length guard in `Vector3.normalize` and the branch
structure of `Quaternion.slerp`).  The scene graph that answers
`getWorldPosition` / `getWorldQuaternion` queries is owned by an external
collaborator (urdf-loader / three.js), so the solvers are parameterized by an
abstract forward-kinematics interface `Scene`.
-/

namespace IAR

/-- `clamp(v, min, max) = Math.max(min, Math.min(max, v))`
(HandRetargeting.js line 12, and the identical local helper in part_004). -/
noncomputable def clamp (v lo hi : ℝ) : ℝ := max lo (min hi v)

/-- `Math.sign` on reals. -/
noncomputable def jsSign (x : ℝ) : ℝ := if 0 < x then 1 else if x < 0 then -1 else 0

/-- `Math.atan2 y x`. -/
noncomputable def jsAtan2 (y x : ℝ) : ℝ :=
  if 0 < x then Real.arctan (y / x)
  else if x < 0 then
    (if 0 ≤ y then Real.arctan (y / x) + Real.pi else Real.arctan (y / x) - Real.pi)
  else
    (if 0 < y then Real.pi / 2 else if y < 0 then -(Real.pi / 2) else 0)

/-- Scalar lerp `a + (b - a) * alpha` (RetargetingFilter's local `lerp`). -/
noncomputable def lerp1 (a b alpha : ℝ) : ℝ := a + (b - a) * alpha

/-! ## three.js `Vector3` -/

/-- A three.js `Vector3`. -/
@[ext] structure Vec3 where
  x : ℝ
  y : ℝ
  z : ℝ


namespace Vec3

noncomputable def add (a b : Vec3) : Vec3 := ⟨a.x + b.x, a.y + b.y, a.z + b.z⟩

noncomputable def sub (a b : Vec3) : Vec3 := ⟨a.x - b.x, a.y - b.y, a.z - b.z⟩

noncomputable def smul (a : Vec3) (s : ℝ) : Vec3 := ⟨a.x * s, a.y * s, a.z * s⟩

noncomputable def divideScalar (a : Vec3) (s : ℝ) : Vec3 := ⟨a.x / s, a.y / s, a.z / s⟩

noncomputable def dot (a b : Vec3) : ℝ := a.x * b.x + a.y * b.y + a.z * b.z

noncomputable def cross (a b : Vec3) : Vec3 :=
  ⟨a.y * b.z - a.z * b.y, a.z * b.x - a.x * b.z, a.x * b.y - a.y * b.x⟩

noncomputable def lengthSq (a : Vec3) : ℝ := a.dot a

noncomputable def length (a : Vec3) : ℝ := Real.sqrt a.lengthSq

/-- `Vector3.distanceTo`. -/
noncomputable def distanceTo (a b : Vec3) : ℝ := (a.sub b).length

/-- `Vector3.normalize` = `divideScalar(length || 1)` (three.js zero guard). -/
noncomputable def normalize (a : Vec3) : Vec3 :=
  a.divideScalar (if a.length = 0 then 1 else a.length)

/-- `Vector3.lerp(v, alpha)`: `this += (v - this) * alpha` componentwise. -/
noncomputable def lerp (a b : Vec3) (alpha : ℝ) : Vec3 :=
  ⟨a.x + (b.x - a.x) * alpha, a.y + (b.y - a.y) * alpha, a.z + (b.z - a.z) * alpha⟩

/-- `Vector3.addScaledVector(v, s)`. -/
noncomputable def addScaledVector (a b : Vec3) (s : ℝ) : Vec3 := a.add (b.smul s)

end Vec3

/-! ## three.js `Quaternion` -/

/-- A three.js `Quaternion` (x, y, z, w). -/
@[ext] structure Quat where
  x : ℝ
  y : ℝ
  z : ℝ
  w : ℝ


namespace Quat

/-- The identity quaternion. -/
def one : Quat := ⟨0, 0, 0, 1⟩

noncomputable def dot (a b : Quat) : ℝ := a.x * b.x + a.y * b.y + a.z * b.z + a.w * b.w

noncomputable def lengthSq (a : Quat) : ℝ := a.dot a

noncomputable def length (a : Quat) : ℝ := Real.sqrt a.lengthSq

noncomputable def neg (a : Quat) : Quat := ⟨-a.x, -a.y, -a.z, -a.w⟩

noncomputable def add (a b : Quat) : Quat := ⟨a.x + b.x, a.y + b.y, a.z + b.z, a.w + b.w⟩

noncomputable def smul (a : Quat) (s : ℝ) : Quat := ⟨a.x * s, a.y * s, a.z * s, a.w * s⟩

/-- `Quaternion.invert` (= `conjugate` in three.js, assumes unit length). -/
noncomputable def conjugate (a : Quat) : Quat := ⟨-a.x, -a.y, -a.z, a.w⟩

/-- Hamilton product, as in `Quaternion.multiplyQuaternions(a, b)`. -/
noncomputable def mul (a b : Quat) : Quat :=
  ⟨a.x * b.w + a.w * b.x + a.y * b.z - a.z * b.y,
   a.y * b.w + a.w * b.y + a.z * b.x - a.x * b.z,
   a.z * b.w + a.w * b.z + a.x * b.y - a.y * b.x,
   a.w * b.w - a.x * b.x - a.y * b.y - a.z * b.z⟩

/-- `a.premultiply(b)` = `b * a`. -/
noncomputable def premultiply (a b : Quat) : Quat := mul b a

/-- `Quaternion.normalize` with the three.js zero-length guard (returns the
identity quaternion when the length is zero). -/
noncomputable def normalize (a : Quat) : Quat :=
  if a.length = 0 then one else ⟨a.x / a.length, a.y / a.length, a.z / a.length, a.w / a.length⟩

/-- `Quaternion.angleTo(q) = 2 * acos(|clamp(dot, -1, 1)|)`. -/
noncomputable def angleTo (a b : Quat) : ℝ :=
  2 * Real.arccos |clamp (a.dot b) (-1) 1|

/-- `Number.EPSILON`. -/
noncomputable def jsEpsilon : ℝ := 2 ^ (-52 : ℤ)

/-- `Quaternion.slerp(qb, t)`, following the three.js implementation branch by
branch (shortest-path sign flip, `cosHalfTheta >= 1` early out, near-parallel
linear fallback, and the `sin`-ratio formula). -/
noncomputable def slerp (qa qb : Quat) (t : ℝ) : Quat :=
  if t = 0 then qa
  else if t = 1 then qb
  else
    let cosHalfTheta0 := qa.dot qb
    let qb' := if cosHalfTheta0 < 0 then qb.neg else qb
    let cosHalfTheta := if cosHalfTheta0 < 0 then -cosHalfTheta0 else cosHalfTheta0
    if 1 ≤ cosHalfTheta then qa
    else
      let sqrSinHalfTheta := 1 - cosHalfTheta * cosHalfTheta
      if sqrSinHalfTheta ≤ jsEpsilon then
        ((qa.smul (1 - t)).add (qb'.smul t)).normalize
      else
        let sinHalfTheta := Real.sqrt sqrSinHalfTheta
        let halfTheta := jsAtan2 sinHalfTheta cosHalfTheta
        let ratioA := Real.sin ((1 - t) * halfTheta) / sinHalfTheta
        let ratioB := Real.sin (t * halfTheta) / sinHalfTheta
        (qa.smul ratioA).add (qb'.smul ratioB)

end Quat

/-- `Vector3.applyQuaternion(q)`:
`t = 2 * cross(q.xyz, v); v + q.w * t + cross(q.xyz, t)`. -/
noncomputable def Vec3.applyQuaternion (v : Vec3) (q : Quat) : Vec3 :=
  let qv : Vec3 := ⟨q.x, q.y, q.z⟩
  let t := (qv.cross v).smul 2
  (v.add (t.smul q.w)).add (qv.cross t)

/-! ## `src/systems/WeightedMovingFilter.js`

The filter is generic in the scalar type so that its behaviour can be
evaluated on rational inputs; the control loop instantiates it at `ℝ` with
weights `[0.4, 0.3, 0.2, 0.1]` and `dataSize = 7`. -/

/-- State of a `WeightedMovingFilter` (weights, window, filtered output,
queue of the most recent samples, oldest first). -/
structure WeightedMovingFilter (α : Type) where
  weights : List α
  dataSize : ℕ
  filteredData : List α
  queue : List (List α)

namespace WeightedMovingFilter

variable {α : Type} [LinearOrderedField α]

/-- `this.windowSize = weights.length`. -/
def windowSize (f : WeightedMovingFilter α) : ℕ := f.weights.length

/-- The constructor: empty queue, zero-filled `Float64Array(dataSize)`. -/
def mk0 (weights : List α) (dataSize : ℕ) : WeightedMovingFilter α :=
  ⟨weights, dataSize, List.replicate dataSize 0, []⟩

/-- `WeightedMovingFilter.addData`, returning the updated filter state; the
value the JS method returns is the `filteredData` field of the result.
`filteredData.set(newest)` overwrites the first `newest.length` slots and
keeps the rest, which is what the passthrough branch models. -/
def addData (f : WeightedMovingFilter α) (newData : List α) : WeightedMovingFilter α :=
  let q0 := if f.windowSize ≤ f.queue.length then f.queue.tail else f.queue
  let q := q0 ++ [newData]
  if q.length < f.windowSize then
    { f with queue := q,
             filteredData := (List.range f.dataSize).map
               (fun j => newData.getD j (f.filteredData.getD j 0)) }
  else
    { f with queue := q,
             filteredData := (List.range f.dataSize).map (fun j =>
               ((List.range f.windowSize).map (fun i =>
                 ((q.reverse.getD i []).getD j 0) * f.weights.getD i 0)).sum) }

/-- `WeightedMovingFilter.reset`. -/
def reset (f : WeightedMovingFilter α) : WeightedMovingFilter α :=
  { f with queue := [], filteredData := List.replicate f.dataSize 0 }

/-- Feed a list of samples through the filter in order. -/
def addAll (f : WeightedMovingFilter α) : List (List α) → WeightedMovingFilter α
  | [] => f
  | d :: ds => (f.addData d).addAll ds

end WeightedMovingFilter

/-! ## `src/systems/ImpedanceControl.js` -/

/-- `ExponentialSmoother` state: `value === null` is the uninitialized state. -/
structure ExponentialSmoother where
  alpha : ℝ
  value : Option Vec3

namespace ExponentialSmoother

/-- `new ExponentialSmoother(alpha)`. -/
def mk0 (alpha : ℝ) : ExponentialSmoother := ⟨alpha, none⟩

/-- `update(target)`: first sample snaps to the target, afterwards
`value.lerp(target, alpha)`.  Returns the output and the new state. -/
noncomputable def update (f : ExponentialSmoother) (target : Vec3) :
    Vec3 × ExponentialSmoother :=
  match f.value with
  | none => (target, { f with value := some target })
  | some v =>
      let v' := v.lerp target f.alpha
      (v', { f with value := some v' })

/-- `reset(value)` (with `reset()` = `reset none`). -/
def reset (f : ExponentialSmoother) (v : Option Vec3) : ExponentialSmoother :=
  { f with value := v }

end ExponentialSmoother

/-- `QuaternionSmoother` state. -/
structure QuaternionSmoother where
  alpha : ℝ
  value : Option Quat

namespace QuaternionSmoother

/-- `new QuaternionSmoother(alpha)`. -/
def mk0 (alpha : ℝ) : QuaternionSmoother := ⟨alpha, none⟩

/-- `update(target)`: first sample snaps to the target, afterwards
`value.slerp(target, alpha)`. -/
noncomputable def update (f : QuaternionSmoother) (target : Quat) :
    Quat × QuaternionSmoother :=
  match f.value with
  | none => (target, { f with value := some target })
  | some v =>
      let v' := v.slerp target f.alpha
      (v', { f with value := some v' })

/-- `reset(value)`. -/
def reset (f : QuaternionSmoother) (v : Option Quat) : QuaternionSmoother :=
  { f with value := v }

end QuaternionSmoother

/-- `SpringDamper` state (`pos === null` is uninitialized). -/
structure SpringDamper where
  M : ℝ
  K : ℝ
  C : ℝ
  pos : Option Vec3
  vel : Vec3

namespace SpringDamper

/-- `new SpringDamper({mass, stiffness, damping})`. -/
def mk0 (mass stiffness damping : ℝ) : SpringDamper :=
  ⟨mass, stiffness, damping, none, ⟨0, 0, 0⟩⟩

/-- `update(target, dt)`: cap `dt` at 0.05, semi-implicit Euler step of
`F = -K (pos - target) - C vel`. -/
noncomputable def update (f : SpringDamper) (target : Vec3) (dt : ℝ) :
    Vec3 × SpringDamper :=
  match f.pos with
  | none => (target, { f with pos := some target })
  | some p =>
      let dt' := min dt 0.05
      let force := ((p.sub target).smul (-f.K)).add (f.vel.smul (-f.C))
      let force := force.divideScalar f.M
      let vel := f.vel.addScaledVector force dt'
      let pos := p.addScaledVector vel dt'
      (pos, { f with pos := some pos, vel := vel })

/-- `reset(pos)`: set/clear the position and zero the velocity. -/
def reset (f : SpringDamper) (p : Option Vec3) : SpringDamper :=
  { f with pos := p, vel := ⟨0, 0, 0⟩ }

end SpringDamper

/-- `HandImpedance`: spring-damper for the wrist position (stiffness 64,
damping 14.4) plus a quaternion smoother (alpha 0.10). -/
structure HandImpedance where
  wristPos : SpringDamper
  wristQuat : QuaternionSmoother

namespace HandImpedance

/-- `new HandImpedance()`. -/
def mk0 : HandImpedance :=
  ⟨SpringDamper.mk0 1 64 14.4, QuaternionSmoother.mk0 0.10⟩

/-- `update(rawPos, rawQuat, dt)`. -/
noncomputable def update (h : HandImpedance) (rawPos : Vec3) (rawQuat : Quat) (dt : ℝ) :
    (Vec3 × Quat) × HandImpedance :=
  let (p, sp) := h.wristPos.update rawPos dt
  let (q, sq) := h.wristQuat.update rawQuat
  ((p, q), ⟨sp, sq⟩)

/-- `reset()`: `wristPos.reset(null); wristQuat.reset(null)`. -/
def reset (h : HandImpedance) : HandImpedance :=
  ⟨h.wristPos.reset none, h.wristQuat.reset none⟩

end HandImpedance

/-! ## `src/systems/HandRetargeting.js` -/

/-- The tracked joint positions consumed by `retargetHand` (each WebXR joint
may be absent).  Field order follows the `get(...)` calls in the source. -/
structure HandJoints where
  wrist : Option Vec3
  thumbMetacarpal : Option Vec3
  thumbProximal : Option Vec3
  thumbDistal : Option Vec3
  thumbTip : Option Vec3
  indexMetacarpal : Option Vec3
  indexProximal : Option Vec3
  indexIntermediate : Option Vec3
  indexDistal : Option Vec3
  indexTip : Option Vec3
  middleMetacarpal : Option Vec3
  middleProximal : Option Vec3
  middleIntermediate : Option Vec3
  middleDistal : Option Vec3
  middleTip : Option Vec3

/-- Thumb part of a `HandShape`: `{ abduction, curl: [c0, c1] }`. -/
structure ThumbShape where
  abduction : ℝ
  curl0 : ℝ
  curl1 : ℝ

/-- Finger part of a `HandShape`: `{ curl: [c0, c1] }`. -/
structure FingerShape where
  curl0 : ℝ
  curl1 : ℝ

/-- Normalized hand-shape descriptor returned by `retargetHand`. -/
structure HandShape where
  thumb : ThumbShape
  index : FingerShape
  middle : FingerShape

/-- The all-zero `HandShape` the source initializes `result` with. -/
def HandShape.zero : HandShape := ⟨⟨0, 0, 0⟩, ⟨0, 0⟩, ⟨0, 0⟩⟩

/-- `measureCurl(metacarpal, proximal, tip)`: tip-to-base distance ratio. -/
noncomputable def measureCurl (metacarpal proximal tip : Vec3) : ℝ :=
  let fingerLength := metacarpal.distanceTo proximal + proximal.distanceTo tip
  if fingerLength < 0.001 then 0
  else
    let directDist := metacarpal.distanceTo tip
    let ratio := directDist / fingerLength
    clamp ((0.92 - ratio) / 0.60) 0 1

/-- `measureJointBend(A, B, C)`: bend angle at `B`, normalized. -/
noncomputable def measureJointBend (A B C : Vec3) : ℝ :=
  let v0 := (A.sub B).normalize
  let v1 := (C.sub B).normalize
  let angle := Real.arccos (clamp (v0.dot v1) (-1) 1)
  clamp ((Real.pi - angle) / (Real.pi * 0.6)) 0 1

/-- The abduction sub-block of the thumb part of `retargetHand`: distance
between thumb proximal and index proximal, normalized by the hand span
(wrist to middle metacarpal), re-centered and clamped. -/
noncomputable def thumbAbduction (j : HandJoints) (wrist thumbProx : Vec3) : ℝ :=
  match j.indexProximal, j.middleMetacarpal with
  | some indexProx, some middleMeta =>
      let handSpan := wrist.distanceTo middleMeta
      if 0.01 < handSpan then
        let thumbToIndex := thumbProx.distanceTo indexProx
        let ratio := thumbToIndex / handSpan
        clamp ((ratio - 0.75) / 0.35) (-1) 1
      else 0
  | _, _ => 0

/-- The pinch-boost sub-term of the thumb curl: extra curl when the thumb tip
approaches the index finger tip. -/
noncomputable def thumbPinchBoost (j : HandJoints) (thumbTip : Vec3) : ℝ :=
  match j.indexTip with
  | some indexTip =>
      let pinchDist := thumbTip.distanceTo indexTip
      clamp (1 - pinchDist / 0.06) 0 1 * 0.5
  | none => 0

/-- The thumb block of `retargetHand` (abduction from the
thumb-proximal↔index-proximal distance over the hand span, curl from the
tip-to-wrist distance with a pinch boost). -/
noncomputable def retargetThumb (j : HandJoints) : ThumbShape :=
  match j.wrist, j.thumbMetacarpal, j.thumbProximal, j.thumbDistal, j.thumbTip,
      j.indexMetacarpal with
  | some wrist, some thumbMeta, some thumbProx, some thumbDist, some thumbTip, some _ =>
      let abduction := thumbAbduction j wrist thumbProx
      let thumbLen := thumbMeta.distanceTo thumbProx + thumbProx.distanceTo thumbDist +
        thumbDist.distanceTo thumbTip
      if 0.01 < thumbLen then
        let tipToWrist := thumbTip.distanceTo wrist
        let generalCurl := clamp (1 - tipToWrist / (thumbLen * 1.3)) 0 1
        let pinchBoost := thumbPinchBoost j thumbTip
        let totalCurl := clamp (generalCurl + pinchBoost) 0 1
        ⟨abduction, totalCurl, clamp (totalCurl * 1.2) 0 1⟩
      else ⟨abduction, 0, 0⟩
  | _, _, _, _, _, _ => ⟨0, 0, 0⟩

/-- The index block of `retargetHand`. -/
noncomputable def retargetIndex (j : HandJoints) : FingerShape :=
  match j.indexMetacarpal, j.indexProximal, j.indexIntermediate, j.indexDistal,
      j.indexTip with
  | some indexMeta, some indexProx, some indexMid, some indexDist, some indexTip =>
      ⟨measureCurl indexMeta indexProx indexTip, measureJointBend indexMid indexDist indexTip⟩
  | _, _, _, _, _ => ⟨0, 0⟩

/-- The middle block of `retargetHand`. -/
noncomputable def retargetMiddle (j : HandJoints) : FingerShape :=
  match j.middleMetacarpal, j.middleProximal, j.middleIntermediate, j.middleDistal,
      j.middleTip with
  | some middleMeta, some middleProx, some middleMid, some middleDist, some middleTip =>
      ⟨measureCurl middleMeta middleProx middleTip,
       measureJointBend middleMid middleDist middleTip⟩
  | _, _, _, _, _ => ⟨0, 0⟩

/-- `retargetHand(joints)`; `none` models the `!joints` early return. -/
noncomputable def retargetHand : Option HandJoints → HandShape
  | none => HandShape.zero
  | some j => ⟨retargetThumb j, retargetIndex j, retargetMiddle j⟩

/-- `RetargetingFilter` state (`last === null` is uninitialized). -/
structure RetargetingFilter where
  alpha : ℝ
  last : Option HandShape

namespace RetargetingFilter

/-- `new RetargetingFilter(alpha)`. -/
def mk0 (alpha : ℝ) : RetargetingFilter := ⟨alpha, none⟩

/-- `update(raw)`: first call stores and returns the raw shape; later calls
lerp every field toward the raw shape.  The returned shape is also the new
`last` state. -/
noncomputable def update (f : RetargetingFilter) (raw : HandShape) :
    HandShape × RetargetingFilter :=
  match f.last with
  | none => (raw, { f with last := some raw })
  | some l =>
      let s : HandShape :=
        ⟨⟨lerp1 l.thumb.abduction raw.thumb.abduction f.alpha,
          lerp1 l.thumb.curl0 raw.thumb.curl0 f.alpha,
          lerp1 l.thumb.curl1 raw.thumb.curl1 f.alpha⟩,
         ⟨lerp1 l.index.curl0 raw.index.curl0 f.alpha,
          lerp1 l.index.curl1 raw.index.curl1 f.alpha⟩,
         ⟨lerp1 l.middle.curl0 raw.middle.curl0 f.alpha,
          lerp1 l.middle.curl1 raw.middle.curl1 f.alpha⟩⟩
      (s, { f with last := some s })

/-- `reset()`. -/
def reset (f : RetargetingFilter) : RetargetingFilter := { f with last := none }

end RetargetingFilter

/-! ## CCD IK (`src/systems/CCDIK.js`, and the earlier part_007 revision)

The solver reads world positions/orientations from the three.js scene graph
(`getWorldPosition`, `getWorldQuaternion`) and writes angles back through
`setJointValue`.  The scene graph is owned by the external urdf-loader /
three.js collaborator, so it is modelled as an abstract forward-kinematics
interface: every world-space query is a function of the current joint-angle
assignment. -/

/-- A URDF joint limit `{lower, upper}`. -/
structure JointLimit where
  lower : ℝ
  upper : ℝ

/-- Static per-joint data of a chain joint: parent-local rotation axis and
the optional `joint.limit`. -/
structure SceneJoint where
  axis : Vec3
  limit : Option JointLimit

/-- `joint.limit?.lower ?? -Math.PI`. -/
noncomputable def limitLower (j : SceneJoint) : ℝ :=
  match j.limit with
  | some l => l.lower
  | none => -Real.pi

/-- `joint.limit?.upper ?? Math.PI`. -/
noncomputable def limitUpper (j : SceneJoint) : ℝ :=
  match j.limit with
  | some l => l.upper
  | none => Real.pi

/-- A joint-angle assignment for an `n`-joint chain. -/
def JState (n : ℕ) : Type := Fin n → ℝ

/-- Abstract scene-graph / forward-kinematics interface for a chain of `n`
joints driving one end effector: `endPos`/`endQuat` answer the end effector's
`getWorldPosition`/`getWorldQuaternion`, `jointPos` a joint's world position,
`jointQuat` a joint's world quaternion and `parentQuat` the world quaternion
of `joint.parent`, all as functions of the committed joint angles. -/
structure Scene (n : ℕ) where
  joints : Fin n → SceneJoint
  endPos : JState n → Vec3
  endQuat : JState n → Quat
  jointPos : Fin n → JState n → Vec3
  jointQuat : Fin n → JState n → Quat
  parentQuat : Fin n → JState n → Quat

namespace CCDIK

variable {n : ℕ}

/-- Position contribution of one joint visit in `solveCCDIK` (CCDIK.js):
signed swing angle about the joint axis, weighted by `posW`. -/
noncomputable def positionContribution (sc : Scene n) (targetPos : Vec3) (i : Fin n)
    (s : JState n) (posW : ℝ) : ℝ :=
  let endP := sc.endPos s
  let jointP := sc.jointPos i s
  let toEnd := endP.sub jointP
  let toTarget := targetPos.sub jointP
  let lenE := toEnd.length
  let lenT := toTarget.length
  if 1e-6 < lenE ∧ 1e-6 < lenT then
    let toEnd := toEnd.divideScalar lenE
    let toTarget := toTarget.divideScalar lenT
    let crossV := toEnd.cross toTarget
    let sinA := crossV.length
    let cosA := toEnd.dot toTarget
    if 1e-6 < sinA then
      let crossV := crossV.divideScalar sinA
      let parentQ := (sc.parentQuat i s).conjugate
      let localAxis := crossV.applyQuaternion parentQ
      let proj := localAxis.dot (sc.joints i).axis
      if 0.01 < |proj| then jsAtan2 sinA cosA * jsSign proj * posW else 0
    else 0
  else 0

/-- Orientation contribution of one joint visit in `solveCCDIK` (CCDIK.js):
axis-projected share of the shortest-path delta rotation, weighted by
`oriW`. -/
noncomputable def orientationContribution (sc : Scene n) (targetQuat : Quat) (i : Fin n)
    (s : JState n) (oriW : ℝ) : ℝ :=
  let endQ := sc.endQuat s
  let deltaQuat := (endQ.conjugate.premultiply targetQuat).normalize
  let deltaQuat := if deltaQuat.w < 0 then deltaQuat.neg else deltaQuat
  let halfAngle := Real.arccos (min 1 deltaQuat.w)
  if 0.005 < halfAngle then
    let sa := Real.sin halfAngle
    let orientAxis :=
      (Vec3.mk (deltaQuat.x / sa) (deltaQuat.y / sa) (deltaQuat.z / sa)).normalize
    let parentQ := (sc.parentQuat i s).conjugate
    let localOAxis := orientAxis.applyQuaternion parentQ
    let proj := localOAxis.dot (sc.joints i).axis
    if 0.01 < |proj| then halfAngle * 2 * jsSign proj * oriW else 0
  else 0

/-- The raw combined (position + orientation) correction for joint `i`, before
damping, as accumulated in `totalAngle` by CCDIK.js. -/
noncomputable def rawCorrection (sc : Scene n) (targetPos : Vec3) (targetQuat : Quat)
    (i : Fin n) (s : JState n) : ℝ :=
  let t : ℝ := if 1 < n then (i : ℝ) / ((n : ℝ) - 1) else 0
  let posW := 1 - t * 0.8
  let oriW := t * 0.8
  positionContribution sc targetPos i s posW +
    (if 0.01 < oriW then orientationContribution sc targetQuat i s oriW else 0)

/-- One joint visit of the inner CCDIK.js loop: damp the raw correction by
`0.5`, skip micro-updates below `0.0001`, then commit the angle clamped to
the joint's `[lower, upper]` (defaults `±π`). -/
noncomputable def jointStep (sc : Scene n) (targetPos : Vec3) (targetQuat : Quat)
    (i : Fin n) (s : JState n) : JState n :=
  let totalAngle := rawCorrection sc targetPos targetQuat i s * 0.5
  if |totalAngle| < 0.0001 then s
  else
    let newAngle := s i + totalAngle
    let lo := limitLower (sc.joints i)
    let hi := limitUpper (sc.joints i)
    Function.update s i (max lo (min hi newAngle))

/-- One outer iteration's sweep over the joints, end effector back to root
(`for (let i = n - 1; i >= 0; i--)`). -/
noncomputable def sweep (sc : Scene n) (targetPos : Vec3) (targetQuat : Quat)
    (s : JState n) : JState n :=
  (List.finRange n).reverse.foldl (fun st i => jointStep sc targetPos targetQuat i st) s

/-- The early-return test of `solveCCDIK`:
`posErr < 0.003 && oriErr < 0.03`. -/
noncomputable def convergedAt (sc : Scene n) (targetPos : Vec3) (targetQuat : Quat)
    (s : JState n) : Prop :=
  (sc.endPos s).distanceTo targetPos < 0.003 ∧ (sc.endQuat s).angleTo targetQuat < 0.03

/-- `solveCCDIK(joints, endEffector, targetPos, targetQuat, iterations)`
from `src/systems/CCDIK.js`: each outer iteration first checks convergence
and returns early, otherwise performs one sweep. -/
noncomputable def solveCCDIK (sc : Scene n) (targetPos : Vec3) (targetQuat : Quat) :
    ℕ → JState n → JState n
  | 0, s => s
  | iter + 1, s =>
      if (sc.endPos s).distanceTo targetPos < 0.003 ∧
          (sc.endQuat s).angleTo targetQuat < 0.03 then s
      else solveCCDIK sc targetPos targetQuat iter (sweep sc targetPos targetQuat s)

/-- The default iteration budget of `solveCCDIK` (`iterations = 25`). -/
def defaultIterations : ℕ := 25

end CCDIK

namespace CCDIK7

variable {n : ℕ}

/-- `MAX_ANGLE_CHANGE_PER_SOLVE` (part_007). -/
noncomputable def maxAngleChangePerSolve : ℝ := 0.15

/-- `REGULARIZATION_WEIGHT` (part_007). -/
noncomputable def regularizationWeight : ℝ := 0.005

/-- `SMOOTH_WEIGHT` (part_007). -/
noncomputable def smoothWeight : ℝ := 0.08

/-- Position contribution of one joint visit in the part_007 solver: as in
CCDIK.js but the axis projection is taken in world space against
`_worldAxis = joint.axis.applyQuaternion(jointWorldQuat).normalize()`. -/
noncomputable def positionContribution (sc : Scene n) (targetPos : Vec3) (i : Fin n)
    (s : JState n) (worldAxis : Vec3) (posW : ℝ) : ℝ :=
  let endP := sc.endPos s
  let jointP := sc.jointPos i s
  let toEnd := endP.sub jointP
  let toTarget := targetPos.sub jointP
  let lenE := toEnd.length
  let lenT := toTarget.length
  if 1e-6 < lenE ∧ 1e-6 < lenT then
    let toEnd := toEnd.divideScalar lenE
    let toTarget := toTarget.divideScalar lenT
    let crossV := toEnd.cross toTarget
    let sinA := crossV.length
    let cosA := toEnd.dot toTarget
    if 1e-6 < sinA then
      let crossV := crossV.divideScalar sinA
      let proj := crossV.dot worldAxis
      if 0.01 < |proj| then jsAtan2 sinA cosA * jsSign proj * posW else 0
    else 0
  else 0

/-- Orientation contribution of one joint visit in the part_007 solver. -/
noncomputable def orientationContribution (sc : Scene n) (targetQuat : Quat)
    (s : JState n) (worldAxis : Vec3) (oriW : ℝ) : ℝ :=
  let endQ := sc.endQuat s
  let deltaQuat := (endQ.conjugate.premultiply targetQuat).normalize
  let deltaQuat := if deltaQuat.w < 0 then deltaQuat.neg else deltaQuat
  let halfAngle := Real.arccos (min 1 deltaQuat.w)
  if 0.005 < halfAngle then
    let sa := Real.sin halfAngle
    let orientAxis :=
      (Vec3.mk (deltaQuat.x / sa) (deltaQuat.y / sa) (deltaQuat.z / sa)).normalize
    let proj := orientAxis.dot worldAxis
    if 0.01 < |proj| then halfAngle * 2 * jsSign proj * oriW else 0
  else 0

/-- Raw combined correction of the part_007 solver (before regularization,
smoothing, damping and the velocity limit). -/
noncomputable def rawCorrection (sc : Scene n) (targetPos : Vec3) (targetQuat : Quat)
    (i : Fin n) (s : JState n) : ℝ :=
  let t : ℝ := if 1 < n then (i : ℝ) / ((n : ℝ) - 1) else 0
  let posW := 1 - t * 0.6
  let oriW := t * 0.15
  let worldAxis := ((sc.joints i).axis.applyQuaternion (sc.jointQuat i s)).normalize
  positionContribution sc targetPos i s worldAxis posW +
    (if 0.001 < oriW then orientationContribution sc targetQuat s worldAxis oriW else 0)

/-- One joint visit of the part_007 inner loop: regularization pull toward
zero, smooth-cost shrink `(1 - 0.08)`, damping `0.4`, the `0.0001` dead zone,
the `±0.15` velocity limit, then the joint-limit clamp. -/
noncomputable def jointStep (sc : Scene n) (targetPos : Vec3) (targetQuat : Quat)
    (i : Fin n) (s : JState n) : JState n :=
  let currentAngle := s i
  let totalAngle := rawCorrection sc targetPos targetQuat i s -
    currentAngle * regularizationWeight
  let totalAngle := totalAngle * (1 - smoothWeight)
  let totalAngle := totalAngle * 0.4
  if |totalAngle| < 0.0001 then s
  else
    let totalAngle := max (-maxAngleChangePerSolve) (min maxAngleChangePerSolve totalAngle)
    let newAngle := currentAngle + totalAngle
    let lo := limitLower (sc.joints i)
    let hi := limitUpper (sc.joints i)
    Function.update s i (max lo (min hi newAngle))

/-- One sweep of the part_007 solver, end effector back to root. -/
noncomputable def sweep (sc : Scene n) (targetPos : Vec3) (targetQuat : Quat)
    (s : JState n) : JState n :=
  (List.finRange n).reverse.foldl (fun st i => jointStep sc targetPos targetQuat i st) s

/-- part_007 `solveCCDIK` (convergence thresholds `0.003` / `0.05`, default
20 iterations). -/
noncomputable def solveCCDIK (sc : Scene n) (targetPos : Vec3) (targetQuat : Quat) :
    ℕ → JState n → JState n
  | 0, s => s
  | iter + 1, s =>
      if (sc.endPos s).distanceTo targetPos < 0.003 ∧
          (sc.endQuat s).angleTo targetQuat < 0.05 then s
      else solveCCDIK sc targetPos targetQuat iter (sweep sc targetPos targetQuat s)

end CCDIK7

/-! ## Two-bone analytical IK (part_010) -/

/-- Result of `solveTwoBoneIK`. -/
structure TwoBoneResult where
  elbowPos : Vec3
  reachable : Prop
  clampedTarget : Vec3

/-- The distance actually used by the angular math of `solveTwoBoneIK`:
`clampedDist = max(minDist, min(maxDist, dist))` with
`maxDist = (L1+L2)*0.999` and `minDist = |L1-L2|*1.001`. -/
noncomputable def twoBoneClampedDist (dist L1 L2 : ℝ) : ℝ :=
  let maxDist := (L1 + L2) * 0.999
  let minDist := |L1 - L2| * 1.001
  max minDist (min maxDist dist)

/-- The `perpAxis` Gram–Schmidt step of `solveTwoBoneIK`, including the
degenerate fallback when the pole is collinear with the arm. -/
noncomputable def twoBonePerpAxis (root pole dirToTarget : Vec3) : Vec3 :=
  let rootToPole := pole.sub root
  let perp := rootToPole.addScaledVector dirToTarget (-(rootToPole.dot dirToTarget))
  if perp.lengthSq < 0.0001 then
    let seed : Vec3 := ⟨0, 1, 0⟩
    let seed := if 0.9 < |dirToTarget.dot seed| then (⟨1, 0, 0⟩ : Vec3) else seed
    (seed.cross dirToTarget).normalize
  else perp.normalize

/-- `solveTwoBoneIK(root, target, pole, L1, L2)` from part_010: clamp the
target distance into `[minDist, maxDist]`, law-of-cosines shoulder angle,
pole-projected elbow direction; reports `reachable = dist ≤ maxDist` instead
of failing. -/
noncomputable def solveTwoBoneIK (root target pole : Vec3) (L1 L2 : ℝ) : TwoBoneResult :=
  let rootToTarget := target.sub root
  let dist := rootToTarget.length
  let maxDist := (L1 + L2) * 0.999
  let clampedDist := twoBoneClampedDist dist L1 L2
  let reachable := dist ≤ maxDist
  let cosA := (L1 * L1 + clampedDist * clampedDist - L2 * L2) / (2 * L1 * clampedDist)
  let angleA := Real.arccos (max (-1) (min 1 cosA))
  let dirToTarget :=
    if dist < 0.001 then (pole.sub root).normalize else rootToTarget.normalize
  let perpAxis := twoBonePerpAxis root pole dirToTarget
  let elbowDir :=
    ((dirToTarget.smul (Real.cos angleA)).addScaledVector perpAxis (Real.sin angleA)).normalize
  let elbowPos := root.addScaledVector elbowDir L1
  ⟨elbowPos, reachable, root.addScaledVector dirToTarget clampedDist⟩

/-! ## The part_004 control loop (current `URDFRobot` with physics)

Per tick and per tracked hand the loop smooths the wrist pose, runs
`solveAndFilter` (CCD solve + weighted-moving joint filter + re-commit) on
the 7-joint arm chain, and maps the filtered `HandShape` onto the finger
joints.  The per-hand `colliding` flag is computed but not consumed, and
`blendToSafe` / `saveAngles` are defined but never called. -/

/-- `COLLISION_GRACE_FRAMES` (part_004). -/
def collisionGraceFrames : ℕ := 30

/-- `solveAndFilter(chain, endLink, targetPos, targetQuat, filter)`
(part_004): CCD solve with 20 iterations, push the solved angles through the
weighted moving filter, re-commit the filtered angles. -/
noncomputable def solveAndFilter {n : ℕ} (sc : Scene n) (targetPos : Vec3)
    (targetQuat : Quat) (filter : WeightedMovingFilter ℝ) (s : JState n) :
    JState n × WeightedMovingFilter ℝ :=
  let s1 := CCDIK.solveCCDIK sc targetPos targetQuat 20 s
  let solved := (List.finRange n).map s1
  let filter := filter.addData solved
  let filtered := filter.filteredData
  ((fun i => if h : (i : ℕ) < filtered.length then filtered.get ⟨i, h⟩ else s1 i), filter)

/-- `blendToSafe(chain, safe)` (part_004): half-way blend toward the saved
safe angles.  Defined in the source but never invoked by the frame loop. -/
noncomputable def blendToSafe {n : ℕ} (s : JState n) (safe : List ℝ) : JState n :=
  fun i =>
    if h : (i : ℕ) < safe.length then s i + (safe.get ⟨i, h⟩ - s i) * 0.5 else s i

/-- `curlToAngle(joint, curl)` (part_004): curl 0 maps to angle 0, curl 1
maps to whichever limit has the larger magnitude; no limit means angle 0. -/
noncomputable def curlToAngle (limit : Option JointLimit) (curl : ℝ) : ℝ :=
  match limit with
  | none => 0
  | some l => if |l.upper| < |l.lower| then l.lower * curl else l.upper * curl

/-- The limits of the 7 hand joints of one side
(`thumb_0/1/2`, `index_0/1`, `middle_0/1`). -/
structure FingerLimits where
  thumb0 : Option JointLimit
  thumb1 : Option JointLimit
  thumb2 : Option JointLimit
  index0 : Option JointLimit
  index1 : Option JointLimit
  middle0 : Option JointLimit
  middle1 : Option JointLimit

/-- The 7 finger-joint angles committed by `applyFingerAngles`. -/
structure FingerAngles where
  thumb0 : ℝ
  thumb1 : ℝ
  thumb2 : ℝ
  index0 : ℝ
  index1 : ℝ
  middle0 : ℝ
  middle1 : ℝ

/-- `applyFingerAngles(robot, side, data)` in the part_004 frame-loop
revision (no handedness sign): thumb joint 0 gets the abduction scaled by
`min(|lower|, |upper|)` and clamped into the limits; all curl joints go
through `curlToAngle`.  A thumb-0 joint without limits is skipped by the
source; it is modelled as keeping angle 0. -/
noncomputable def applyFingerAngles (lims : FingerLimits) (data : HandShape) : FingerAngles :=
  let thumb0 :=
    match lims.thumb0 with
    | some l =>
        let range := min |l.lower| |l.upper|
        clamp (data.thumb.abduction * range) l.lower l.upper
    | none => 0
  ⟨thumb0,
   curlToAngle lims.thumb1 data.thumb.curl0,
   curlToAngle lims.thumb2 data.thumb.curl1,
   curlToAngle lims.index0 data.index.curl0,
   curlToAngle lims.index1 data.index.curl1,
   curlToAngle lims.middle0 data.middle.curl0,
   curlToAngle lims.middle1 data.middle.curl1⟩

/-- Thumb-0 commit of the earlier `applyFingerAngles` revision (part_004,
second document): same as above but with the handedness sign
(`side === 'left' ? 1 : -1`) applied to the abduction. -/
noncomputable def thumb0AngleSigned (isLeft : Bool) (l : JointLimit) (abd : ℝ) : ℝ :=
  let sign : ℝ := if isLeft then 1 else -1
  let range := min |l.lower| |l.upper|
  clamp (sign * abd * range) l.lower l.upper

/-- Mutable per-hand state of the part_004 frame loop. -/
structure HandLoopState (n : ℕ) where
  smoothPos : ExponentialSmoother
  smoothQuat : QuaternionSmoother
  jointFilter : WeightedMovingFilter ℝ
  retarget : RetargetingFilter
  angles : JState n
  fingers : FingerAngles

/-- One hand's update in the part_004 frame loop, given that the wrist joint
is tracked: smooth the corrected wrist pose, compute the (unused) `colliding`
flag, `solveAndFilter` the arm chain, then retarget/filter/commit the finger
angles.  `collision` is the per-hand boolean read from `collision.current`
and `frames` the incremented tracking-frame counter. -/
noncomputable def handFrameUpdate {n : ℕ} (sc : Scene n) (lims : FingerLimits)
    (correction : Quat) (collision : Bool) (frames : ℕ)
    (wristPos : Vec3) (wristQuat : Quat) (joints : HandJoints)
    (st : HandLoopState n) : HandLoopState n :=
  let correctedQuat := wristQuat.mul correction
  let (p, smoothPos) := st.smoothPos.update wristPos
  let (q, smoothQuat) := st.smoothQuat.update correctedQuat
  let _colliding := collision && decide (collisionGraceFrames < frames)
  let (angles, jointFilter) := solveAndFilter sc p q st.jointFilter st.angles
  let raw := retargetHand (some joints)
  let (shape, retarget) := st.retarget.update raw
  let fingers := applyFingerAngles lims shape
  ⟨smoothPos, smoothQuat, jointFilter, retarget, angles, fingers⟩

/-! ## The `src/components/URDFRobot.jsx` per-hand tracking state machine

The second component in that file owns, per hand, a `HandImpedance`
(spring-damper + quaternion smoother), a `RetargetingFilter(0.18)` and a
`hadHand` flag.  When a tracked hand is seen with `hadHand == false` the
impedance state is reset to the new raw sample before updating; when a hand
disappears the impedance state is reset (to null) and `hadHand` cleared.
The `RetargetingFilter` is never reset. -/

/-- Per-hand controller state of `URDFRobot.jsx`. -/
structure TrackState where
  impedance : HandImpedance
  retarget : RetargetingFilter
  hadHand : Bool

/-- The initial per-hand state (`new HandImpedance()`,
`new RetargetingFilter(0.18)`, `hadHand = false`). -/
def TrackState.init : TrackState :=
  ⟨HandImpedance.mk0, RetargetingFilter.mk0 0.18, false⟩

/-- The tracked data of one hand in one frame: the raw wrist pose plus the
full joint map handed to `retargetHand`. -/
structure HandInput where
  wristPos : Vec3
  wristQuat : Quat
  joints : HandJoints

/-- What one tick commits for one hand: the smoothed wrist pose fed to the
arm IK and the smoothed `HandShape` applied to the fingers. -/
structure TickOutput where
  smoothPos : Vec3
  smoothQuat : Quat
  shape : HandShape

/-- One tick of the `URDFRobot.jsx` loop for one hand.  `input = none` models
a frame in which this hand is not tracked (or its wrist pose is missing): the
hand's pipeline stage is skipped and, if the hand was previously tracked, the
impedance filters are reset.  `dt` is the frame delta. -/
noncomputable def handTick (dt : ℝ) (input : Option HandInput) (st : TrackState) :
    Option TickOutput × TrackState :=
  match input with
  | none =>
      if st.hadHand then (none, ⟨st.impedance.reset, st.retarget, false⟩)
      else (none, st)
  | some inp =>
      let imp0 :=
        if st.hadHand then st.impedance
        else
          let r := st.impedance.reset
          ⟨r.wristPos.reset (some inp.wristPos), r.wristQuat.reset (some inp.wristQuat)⟩
      let ((p, q), imp1) := imp0.update inp.wristPos inp.wristQuat (min dt 0.05)
      let raw := retargetHand (some inp.joints)
      let (shape, rt) := st.retarget.update raw
      (some ⟨p, q, shape⟩, ⟨imp1, rt, true⟩)

/-- The two hands' states are disjoint: the frame loop updates each hand's
state only from that hand's input (`isLeft` selects `impedanceL/retargetL`
or `impedanceR/retargetR`). -/
noncomputable def bothHandsTick (dt : ℝ) (inL inR : Option HandInput)
    (stL stR : TrackState) :
    (Option TickOutput × TrackState) × (Option TickOutput × TrackState) :=
  (handTick dt inL stL, handTick dt inR stR)

/-! ## Mirroring, and concrete instances used by witnesses/counterexamples -/

/-- Mirror a point across the lateral (x) axis. -/
noncomputable def mirrorX (v : Vec3) : Vec3 := ⟨-v.x, v.y, v.z⟩

/-- Mirror every tracked joint position of a hand across the lateral axis:
this turns a left hand's joint map into the corresponding right hand's. -/
noncomputable def mirrorJoints (j : HandJoints) : HandJoints :=
  ⟨j.wrist.map mirrorX, j.thumbMetacarpal.map mirrorX, j.thumbProximal.map mirrorX,
   j.thumbDistal.map mirrorX, j.thumbTip.map mirrorX, j.indexMetacarpal.map mirrorX,
   j.indexProximal.map mirrorX, j.indexIntermediate.map mirrorX, j.indexDistal.map mirrorX,
   j.indexTip.map mirrorX, j.middleMetacarpal.map mirrorX, j.middleProximal.map mirrorX,
   j.middleIntermediate.map mirrorX, j.middleDistal.map mirrorX, j.middleTip.map mirrorX⟩

/-- The joint filter instantiated by the part_004 loop:
`new WeightedMovingFilter([0.4, 0.3, 0.2, 0.1], 7)`. -/
noncomputable def jointFilter : WeightedMovingFilter ℝ :=
  WeightedMovingFilter.mk0 [0.4, 0.3, 0.2, 0.1] 7

/-- The all-zero joint state. -/
noncomputable def zeroState (n : ℕ) : JState n := fun _ => 0

/-- A concrete 1-joint scene with constant forward kinematics (end effector
at `(1,0,0)`, joint at the origin, axis `z`, identity orientations, no
configured limits). -/
noncomputable def demoScene : Scene 1 where
  joints := fun _ => ⟨⟨0, 0, 1⟩, none⟩
  endPos := fun _ => ⟨1, 0, 0⟩
  endQuat := fun _ => Quat.one
  jointPos := fun _ _ => ⟨0, 0, 0⟩
  jointQuat := fun _ _ => Quat.one
  parentQuat := fun _ _ => Quat.one

/-- A concrete 7-joint scene with constant forward kinematics and limits
`[-2, 2]` on every joint. -/
noncomputable def demoScene7 : Scene 7 where
  joints := fun _ => ⟨⟨0, 0, 1⟩, some ⟨-2, 2⟩⟩
  endPos := fun _ => ⟨0, 0, 0⟩
  endQuat := fun _ => Quat.one
  jointPos := fun _ _ => ⟨0, 0, 0⟩
  jointQuat := fun _ _ => Quat.one
  parentQuat := fun _ _ => Quat.one

/-- A concrete tracked left hand: thumb chain along x with the tip raised,
index proximal next to the thumb proximal, middle metacarpal straight up
from the wrist.  Gives hand span `0.1`, thumb–index distance `0.04`, thumb
length `0.08`. -/
noncomputable def jC3L : HandJoints :=
  ⟨some ⟨0, 0, 0⟩, some ⟨0.02, 0, 0⟩, some ⟨0.06, 0, 0⟩, some ⟨0.06, 0.02, 0⟩,
   some ⟨0.06, 0.04, 0⟩, some ⟨0.08, 0, 0⟩, some ⟨0.06, 0.04, 0⟩, none, none, none,
   some ⟨0, 0.1, 0⟩, none, none, none, none⟩

/-- The mirror image of `jC3L` across the lateral axis (every `x`
negated), i.e. the same pose presented as the other hand. -/
noncomputable def jC3R : HandJoints :=
  ⟨some ⟨0, 0, 0⟩, some ⟨-0.02, 0, 0⟩, some ⟨-0.06, 0, 0⟩, some ⟨-0.06, 0.02, 0⟩,
   some ⟨-0.06, 0.04, 0⟩, some ⟨-0.08, 0, 0⟩, some ⟨-0.06, 0.04, 0⟩, none, none, none,
   some ⟨0, 0.1, 0⟩, none, none, none, none⟩

/-- A hand frame with no tracked finger joints (shape retargets to zero). -/
noncomputable def jNone : HandJoints :=
  ⟨none, none, none, none, none, none, none, none, none, none, none, none, none,
   none, none⟩

/-- A hand frame whose index finger is fully curled (tip pulled back toward
the metacarpal): index curls retarget to `1`. -/
noncomputable def jCurl : HandJoints :=
  ⟨none, none, none, none, none, some ⟨0, 0, 0⟩, some ⟨0, 0.03, 0⟩, some ⟨0, 0.05, 0⟩,
   some ⟨0, 0.07, 0⟩, some ⟨0, 0.01, 0⟩, none, none, none, none, none⟩

/-- Tracked-hand input before the tracking gap (wrist at the origin, open
hand). -/
noncomputable def inputA : HandInput := ⟨⟨0, 0, 0⟩, Quat.one, jNone⟩

/-- Tracked-hand input after the tracking gap (wrist at a new position,
index finger curled). -/
noncomputable def inputB : HandInput := ⟨⟨1, 0, 0⟩, Quat.one, jCurl⟩

/-! ## Helper lemmas -/

theorem le_clamp (v lo hi : ℝ) : lo ≤ clamp v lo hi := le_max_left _ _

theorem clamp_le {lo hi : ℝ} (v : ℝ) (h : lo ≤ hi) : clamp v lo hi ≤ hi :=
  max_le h (min_le_left _ _)

theorem clamp_mem {lo hi : ℝ} (v : ℝ) (h : lo ≤ hi) : clamp v lo hi ∈ Set.Icc lo hi :=
  ⟨le_clamp v lo hi, clamp_le v h⟩

theorem clamp_mem01 (v : ℝ) : clamp v 0 1 ∈ Set.Icc (0 : ℝ) 1 :=
  clamp_mem v (by norm_num)

/-- `measureCurl` always lands in `[0, 1]`. -/
theorem measureCurl_mem (a b c : Vec3) : measureCurl a b c ∈ Set.Icc (0 : ℝ) 1 := by
  simp only [measureCurl]
  split_ifs
  · exact ⟨le_refl 0, by norm_num⟩
  · exact clamp_mem01 _

/-- `measureJointBend` always lands in `[0, 1]`. -/
theorem measureJointBend_mem (a b c : Vec3) : measureJointBend a b c ∈ Set.Icc (0 : ℝ) 1 :=
  clamp_mem01 _

/-- All committed angles lie within the configured joint limits
(defaults `±π` for a joint without limits). -/
def InLimits {n : ℕ} (sc : Scene n) (s : JState n) : Prop :=
  ∀ i, limitLower (sc.joints i) ≤ s i ∧ s i ≤ limitUpper (sc.joints i)

/-- Well-formed limits: `lower ≤ upper` for every joint of the chain. -/
def LimitsWF {n : ℕ} (sc : Scene n) : Prop :=
  ∀ i, limitLower (sc.joints i) ≤ limitUpper (sc.joints i)

theorem update_clamped_inLimits {n : ℕ} {sc : Scene n} {s : JState n}
    (hwf : LimitsWF sc) (hs : InLimits sc s) (i : Fin n) (v : ℝ) :
    InLimits sc (Function.update s i
      (max (limitLower (sc.joints i)) (min (limitUpper (sc.joints i)) v))) := by
  intro k
  rcases eq_or_ne k i with rfl | hk
  · rw [Function.update_same]
    exact ⟨le_max_left _ _, max_le (hwf k) (min_le_left _ _)⟩
  · rw [Function.update_noteq hk]
    exact hs k

theorem CCDIK.jointStep_inLimits {n : ℕ} {sc : Scene n} {tp : Vec3} {tq : Quat}
    {i : Fin n} {s : JState n} (hwf : LimitsWF sc) (hs : InLimits sc s) :
    InLimits sc (CCDIK.jointStep sc tp tq i s) := by
  unfold CCDIK.jointStep
  dsimp only
  split_ifs
  · exact hs
  · exact update_clamped_inLimits hwf hs i _

theorem CCDIK.sweep_inLimits {n : ℕ} {sc : Scene n} {tp : Vec3} {tq : Quat}
    {s : JState n} (hwf : LimitsWF sc) (hs : InLimits sc s) :
    InLimits sc (CCDIK.sweep sc tp tq s) := by
  unfold CCDIK.sweep
  generalize (List.finRange n).reverse = l
  induction l generalizing s with
  | nil => exact hs
  | cons i l ih => exact ih (CCDIK.jointStep_inLimits hwf hs)

theorem CCDIK.solveCCDIK_inLimits {n : ℕ} {sc : Scene n} {tp : Vec3} {tq : Quat}
    (fuel : ℕ) {s : JState n} (hwf : LimitsWF sc) (hs : InLimits sc s) :
    InLimits sc (CCDIK.solveCCDIK sc tp tq fuel s) := by
  induction fuel generalizing s with
  | zero => exact hs
  | succ k ih =>
      rw [CCDIK.solveCCDIK]
      split_ifs
      · exact hs
      · exact ih (CCDIK.sweep_inLimits hwf hs)

theorem CCDIK7.jointStep7_inLimits {n : ℕ} {sc : Scene n} {tp : Vec3} {tq : Quat}
    {i : Fin n} {s : JState n} (hwf : LimitsWF sc) (hs : InLimits sc s) :
    InLimits sc (CCDIK7.jointStep sc tp tq i s) := by
  unfold CCDIK7.jointStep
  dsimp only
  split_ifs
  · exact hs
  · exact update_clamped_inLimits hwf hs i _

/-- `thumbAbduction` always lands in `[-1, 1]`. -/
theorem thumbAbduction_mem (j : HandJoints) (w tp : Vec3) :
    thumbAbduction j w tp ∈ Set.Icc (-1 : ℝ) 1 := by
  have h0 : (0 : ℝ) ∈ Set.Icc (-1 : ℝ) 1 := by norm_num
  unfold thumbAbduction
  split
  · dsimp only
    split_ifs
    · exact clamp_mem _ (by norm_num)
    · exact h0
  · exact h0

/-- Every thumb field of `retargetThumb` is in range. -/
theorem retargetThumb_mem (j : HandJoints) :
    (retargetThumb j).abduction ∈ Set.Icc (-1 : ℝ) 1 ∧
      (retargetThumb j).curl0 ∈ Set.Icc (0 : ℝ) 1 ∧
      (retargetThumb j).curl1 ∈ Set.Icc (0 : ℝ) 1 := by
  have h0 : (0 : ℝ) ∈ Set.Icc (-1 : ℝ) 1 := by norm_num
  have h01 : (0 : ℝ) ∈ Set.Icc (0 : ℝ) 1 := by norm_num
  unfold retargetThumb
  split
  · dsimp only
    split_ifs
    · exact ⟨thumbAbduction_mem _ _ _, clamp_mem01 _, clamp_mem01 _⟩
    · exact ⟨thumbAbduction_mem _ _ _, h01, h01⟩
  · exact ⟨h0, h01, h01⟩

/-- Both index curls of `retargetIndex` are in range. -/
theorem retargetIndex_mem (j : HandJoints) :
    (retargetIndex j).curl0 ∈ Set.Icc (0 : ℝ) 1 ∧
      (retargetIndex j).curl1 ∈ Set.Icc (0 : ℝ) 1 := by
  have h01 : (0 : ℝ) ∈ Set.Icc (0 : ℝ) 1 := by norm_num
  unfold retargetIndex
  split
  · exact ⟨measureCurl_mem _ _ _, measureJointBend_mem _ _ _⟩
  · exact ⟨h01, h01⟩

/-- Both middle curls of `retargetMiddle` are in range. -/
theorem retargetMiddle_mem (j : HandJoints) :
    (retargetMiddle j).curl0 ∈ Set.Icc (0 : ℝ) 1 ∧
      (retargetMiddle j).curl1 ∈ Set.Icc (0 : ℝ) 1 := by
  have h01 : (0 : ℝ) ∈ Set.Icc (0 : ℝ) 1 := by norm_num
  unfold retargetMiddle
  split
  · exact ⟨measureCurl_mem _ _ _, measureJointBend_mem _ _ _⟩
  · exact ⟨h01, h01⟩

/-- **C2** (HandShape range invariant): for every input mapping of tracked
finger-joint positions — including degenerate or adversarial ones, and
including a missing joint map — every curl value in the `HandShape` returned
by `retargetHand` lies in `[0, 1]` and the thumb abduction lies in
`[-1, 1]`. -/
theorem c2_handshape_ranges (j : Option HandJoints) :
    (retargetHand j).thumb.abduction ∈ Set.Icc (-1 : ℝ) 1 ∧
      (retargetHand j).thumb.curl0 ∈ Set.Icc (0 : ℝ) 1 ∧
      (retargetHand j).thumb.curl1 ∈ Set.Icc (0 : ℝ) 1 ∧
      (retargetHand j).index.curl0 ∈ Set.Icc (0 : ℝ) 1 ∧
      (retargetHand j).index.curl1 ∈ Set.Icc (0 : ℝ) 1 ∧
      (retargetHand j).middle.curl0 ∈ Set.Icc (0 : ℝ) 1 ∧
      (retargetHand j).middle.curl1 ∈ Set.Icc (0 : ℝ) 1 := by
  cases j with
  | none =>
      refine ⟨?_, ?_, ?_, ?_, ?_, ?_, ?_⟩ <;>
        simp [retargetHand, HandShape.zero, Set.mem_Icc]
  | some j =>
      obtain ⟨ha, hc0, hc1⟩ := retargetThumb_mem j
      obtain ⟨hi0, hi1⟩ := retargetIndex_mem j
      obtain ⟨hm0, hm1⟩ := retargetMiddle_mem j
      exact ⟨ha, hc0, hc1, hi0, hi1, hm0, hm1⟩

/-! ## Weighted moving filter lemmas (C9, and the convexity step of C1) -/

namespace WeightedMovingFilter

variable {α : Type} [LinearOrderedField α]

theorem addData_weights (f : WeightedMovingFilter α) (nd : List α) :
    (f.addData nd).weights = f.weights := by
  unfold addData
  dsimp only
  split_ifs <;> rfl

theorem addData_dataSize (f : WeightedMovingFilter α) (nd : List α) :
    (f.addData nd).dataSize = f.dataSize := by
  unfold addData
  dsimp only
  split_ifs <;> rfl

theorem addData_queue (f : WeightedMovingFilter α) (nd : List α) :
    (f.addData nd).queue =
      (if f.windowSize ≤ f.queue.length then f.queue.tail else f.queue) ++ [nd] := by
  unfold addData
  dsimp only
  split_ifs <;> rfl

theorem addAll_weights (f : WeightedMovingFilter α) (ds : List (List α)) :
    (f.addAll ds).weights = f.weights := by
  induction ds generalizing f with
  | nil => rfl
  | cons d ds ih => rw [addAll, ih, addData_weights]

theorem addAll_dataSize (f : WeightedMovingFilter α) (ds : List (List α)) :
    (f.addAll ds).dataSize = f.dataSize := by
  induction ds generalizing f with
  | nil => rfl
  | cons d ds ih => rw [addAll, ih, addData_dataSize]

theorem addAll_append (f : WeightedMovingFilter α) (l1 l2 : List (List α)) :
    f.addAll (l1 ++ l2) = (f.addAll l1).addAll l2 := by
  induction l1 generalizing f with
  | nil => rfl
  | cons d l1 ih => rw [List.cons_append, addAll, addAll, ih]

/-- While there is spare window capacity, `addData` only appends to the
queue. -/
theorem addAll_queue_of_le (ds : List (List α)) (f : WeightedMovingFilter α)
    (h : f.queue.length + ds.length ≤ f.windowSize) :
    (f.addAll ds).queue = f.queue ++ ds := by
  induction ds generalizing f with
  | nil => simp [addAll]
  | cons d ds ih =>
      rw [addAll]
      have hlt : ¬ f.windowSize ≤ f.queue.length := by
        simp only [List.length_cons] at h
        omega
      have hq : (f.addData d).queue = f.queue ++ [d] := by
        rw [addData_queue, if_neg hlt]
      have hw : (f.addData d).windowSize = f.windowSize := by
        unfold windowSize
        rw [addData_weights]
      rw [ih]
      · rw [hq, List.append_assoc]
        rfl
      · rw [hq, hw, List.length_append]
        simp only [List.length_cons] at h ⊢
        simp
        omega

end WeightedMovingFilter

/-- Reading back a list through `getD` over its index range reproduces it,
whatever defaults are supplied. -/
theorem map_range_getD {α : Type} (l : List α) (g : ℕ → α) :
    (List.range l.length).map (fun j => l.getD j (g j)) = l := by
  apply List.ext_getElem
  · simp
  · intro n h1 h2
    simp [List.getD_eq_getElem, h2]

namespace WeightedMovingFilter

variable {α : Type} [LinearOrderedField α]

/-- Until the window fills, a whole run from the fresh filter passes the
newest raw sample through unchanged. -/
theorem run_passthrough (w : List α) (d : ℕ) (ss : List (List α)) (s : List α)
    (hcap : ss.length + 1 < w.length) (hs : s.length = d) :
    ((mk0 w d).addAll (ss ++ [s])).filteredData = s := by
  have hq1 : ((mk0 w d : WeightedMovingFilter α).addAll ss).queue = ss := by
    have h := addAll_queue_of_le (f := (mk0 w d : WeightedMovingFilter α)) ss
      (by simp [mk0, windowSize]; omega)
    simpa [mk0] using h
  have hw1 : ((mk0 w d : WeightedMovingFilter α).addAll ss).weights = w :=
    addAll_weights _ _
  have hd1 : ((mk0 w d : WeightedMovingFilter α).addAll ss).dataSize = d :=
    addAll_dataSize _ _
  rw [addAll_append]
  have hsingle : ∀ g : WeightedMovingFilter α, g.addAll [s] = g.addData s := fun g => rfl
  rw [hsingle]
  unfold addData
  dsimp only
  unfold windowSize
  rw [hq1, hw1, hd1]
  rw [if_neg (by omega : ¬ w.length ≤ ss.length)]
  rw [if_pos (by simp; omega)]
  subst hs
  exact map_range_getD s _

/-- Once exactly window-many samples have been fed from the fresh filter, the
output is the weighted sum of the samples, `weights[i]` multiplying the
`i`-th newest sample. -/
theorem run_full_window (w : List α) (d : ℕ) (ss : List (List α))
    (hlen : ss.length = w.length) (hpos : 0 < w.length) :
    ((mk0 w d).addAll ss).filteredData =
      (List.range d).map (fun j =>
        ((List.range w.length).map (fun i =>
          ((ss.reverse.getD i []).getD j 0) * w.getD i 0)).sum) := by
  rcases List.eq_nil_or_concat ss with rfl | ⟨init, lst, rfl⟩
  · simp at hlen
    omega
  · simp only [List.concat_eq_append] at hlen ⊢
    have hinit : init.length + 1 = w.length := by
      simpa using hlen
    have hq1 : ((mk0 w d : WeightedMovingFilter α).addAll init).queue = init := by
      have h := addAll_queue_of_le (f := (mk0 w d : WeightedMovingFilter α)) init
        (by simp [mk0, windowSize]; omega)
      simpa [mk0] using h
    have hw1 : ((mk0 w d : WeightedMovingFilter α).addAll init).weights = w :=
      addAll_weights _ _
    have hd1 : ((mk0 w d : WeightedMovingFilter α).addAll init).dataSize = d :=
      addAll_dataSize _ _
    rw [addAll_append]
    have hsingle : ∀ g : WeightedMovingFilter α, g.addAll [lst] = g.addData lst :=
      fun g => rfl
    rw [hsingle]
    unfold addData
    dsimp only
    unfold windowSize
    rw [hq1, hw1, hd1]
    rw [if_neg (by omega : ¬ w.length ≤ init.length)]
    rw [if_neg (by simp; omega)]

end WeightedMovingFilter

/-- **C9** (weighted moving average): until the fixed window of
`N = weights.length` samples fills, `addData` passes the newest raw sample
through unchanged; once full, the output is the weighted sum of the last `N`
samples with `weights[i]` multiplying the `i`-th newest one; `reset` returns
the filter to the freshly constructed state; and the weights instantiated by
the control loop (`[0.4, 0.3, 0.2, 0.1]`) are positive and strictly
decreasing with sample age, so the most recent sample receives the highest
weight. -/
theorem c9_weighted_moving_filter :
    (∀ (α : Type) [LinearOrderedField α] (w : List α) (d : ℕ)
        (ss : List (List α)) (s : List α),
        ss.length + 1 < w.length → s.length = d →
        ((WeightedMovingFilter.mk0 w d).addAll (ss ++ [s])).filteredData = s) ∧
    (∀ (α : Type) [LinearOrderedField α] (w : List α) (d : ℕ) (ss : List (List α)),
        ss.length = w.length → 0 < w.length →
        ((WeightedMovingFilter.mk0 w d).addAll ss).filteredData =
          (List.range d).map (fun j =>
            ((List.range w.length).map (fun i =>
              ((ss.reverse.getD i []).getD j 0) * w.getD i 0)).sum)) ∧
    (∀ (α : Type) [LinearOrderedField α] (f : WeightedMovingFilter α),
        f.reset = WeightedMovingFilter.mk0 f.weights f.dataSize) ∧
    jointFilter.weights = [0.4, 0.3, 0.2, 0.1] ∧
    List.Chain' (fun a b => b < a) jointFilter.weights ∧
    (∀ x ∈ jointFilter.weights, (0 : ℝ) < x) :=
  ⟨fun _ _ w d ss s h1 h2 => WeightedMovingFilter.run_passthrough w d ss s h1 h2,
   fun _ _ w d ss h1 h2 => WeightedMovingFilter.run_full_window w d ss h1 h2,
   fun _ _ _ => rfl,
   rfl,
   by norm_num [jointFilter, WeightedMovingFilter.mk0, List.chain'_cons],
   by norm_num [jointFilter, WeightedMovingFilter.mk0]⟩

/-- Witness for C9: a three-sample run through the window-4 filter passes the
newest sample through, and a four-sample run produces the weighted sum. -/
theorem c9_witness :
    (([[(1 : ℚ), 2]] : List (List ℚ)).length + 1 <
        ([0.4, 0.3, 0.2, 0.1] : List ℚ).length ∧
      ([(5 : ℚ), 6] : List ℚ).length = 2 ∧
      ((WeightedMovingFilter.mk0 ([0.4, 0.3, 0.2, 0.1] : List ℚ) 2).addAll
        ([[1, 2]] ++ [[(5 : ℚ), 6]])).filteredData = [5, 6]) ∧
    (([[10], [20]] : List (List ℚ)).length = ([(2 : ℚ), 1] : List ℚ).length ∧
      0 < ([(2 : ℚ), 1] : List ℚ).length ∧
      ((WeightedMovingFilter.mk0 ([(2 : ℚ), 1] : List ℚ) 1).addAll
        [[10], [20]]).filteredData =
        (List.range 1).map (fun j =>
          ((List.range ([(2 : ℚ), 1] : List ℚ).length).map (fun i =>
            ((([[(10 : ℚ)], [20]] : List (List ℚ)).reverse.getD i []).getD j 0) *
              ([(2 : ℚ), 1] : List ℚ).getD i 0)).sum)) :=
  ⟨⟨by decide, by decide,
    c9_weighted_moving_filter.1 ℚ [0.4, 0.3, 0.2, 0.1] 2 [[1, 2]] [5, 6]
      (by decide) (by decide)⟩,
   ⟨by decide, by decide,
    c9_weighted_moving_filter.2.1 ℚ [2, 1] 1 [[10], [20]] (by decide) (by decide)⟩⟩

/-- **C10** (collision non-interference): in the part_004 frame loop the
committed joint and finger angles are independent of the per-hand collision
boolean — two runs of the same tick that differ only in the collision flag
produce identical states, because the computed `colliding` flag is never
consumed (and `blendToSafe` is never invoked by the loop). -/
theorem c10_collision_independent {n : ℕ} (sc : Scene n) (lims : FingerLimits)
    (correction : Quat) (c1 c2 : Bool) (frames : ℕ) (wristPos : Vec3)
    (wristQuat : Quat) (joints : HandJoints) (st : HandLoopState n) :
    handFrameUpdate sc lims correction c1 frames wristPos wristQuat joints st =
      handFrameUpdate sc lims correction c2 frames wristPos wristQuat joints st := rfl

/-- **C6** (convergence and iteration budget): every outer iteration of
`solveCCDIK` first tests the end-effector position error against `0.003` and
the orientation error against `0.03` and returns the state unchanged when
both are below threshold; otherwise the solver performs at most `fuel`
sweeps (the default budget being 25 outer iterations). -/
theorem c6_convergence_and_budget :
    (∀ (n : ℕ) (sc : Scene n) (tp : Vec3) (tq : Quat) (fuel : ℕ) (s : JState n),
        (sc.endPos s).distanceTo tp < 0.003 → (sc.endQuat s).angleTo tq < 0.03 →
        CCDIK.solveCCDIK sc tp tq (fuel + 1) s = s) ∧
    (∀ (n : ℕ) (sc : Scene n) (tp : Vec3) (tq : Quat) (fuel : ℕ) (s : JState n),
        ∃ k ≤ fuel, CCDIK.solveCCDIK sc tp tq fuel s = (CCDIK.sweep sc tp tq)^[k] s) ∧
    CCDIK.defaultIterations = 25 := by
  refine ⟨?_, ?_, rfl⟩
  · intro n sc tp tq fuel s h1 h2
    rw [CCDIK.solveCCDIK, if_pos ⟨h1, h2⟩]
  · intro n sc tp tq fuel
    induction fuel with
    | zero => exact fun s => ⟨0, le_refl 0, rfl⟩
    | succ f ih =>
        intro s
        rw [CCDIK.solveCCDIK]
        split_ifs
        · exact ⟨0, Nat.zero_le _, rfl⟩
        · obtain ⟨k, hk, he⟩ := ih (CCDIK.sweep sc tp tq s)
          exact ⟨k + 1, by omega, by rw [he, Function.iterate_succ_apply]⟩

/-- Witness for C6: on a converged concrete scene the solver returns its
input state unchanged. -/
theorem c6_witness :
    ((demoScene.endPos (zeroState 1)).distanceTo ⟨1, 0, 0⟩ < 0.003 ∧
      (demoScene.endQuat (zeroState 1)).angleTo Quat.one < 0.03) ∧
    CCDIK.solveCCDIK demoScene ⟨1, 0, 0⟩ Quat.one 25 (zeroState 1) = zeroState 1 := by
  have hd : (demoScene.endPos (zeroState 1)).distanceTo ⟨1, 0, 0⟩ < 0.003 := by
    have : (demoScene.endPos (zeroState 1)).distanceTo ⟨1, 0, 0⟩ = Real.sqrt 0 := by
      simp [demoScene, Vec3.distanceTo, Vec3.length, Vec3.lengthSq, Vec3.sub, Vec3.dot]
    rw [this, Real.sqrt_zero]
    norm_num
  have ha : (demoScene.endQuat (zeroState 1)).angleTo Quat.one < 0.03 := by
    have : (demoScene.endQuat (zeroState 1)).angleTo Quat.one =
        2 * Real.arccos |clamp 1 (-1) 1| := by
      simp [demoScene, Quat.angleTo, Quat.dot, Quat.one]
    rw [this]
    have hc : clamp 1 (-1) 1 = (1 : ℝ) := by
      unfold clamp
      norm_num
    rw [hc]
    norm_num [Real.arccos_one]
  exact ⟨⟨hd, ha⟩,
    c6_convergence_and_budget.1 1 demoScene ⟨1, 0, 0⟩ Quat.one 24 (zeroState 1) hd ha⟩

/-! ## C1: the joint-limit invariant -/

theorem mem_of_tail {β : Type} {v : β} {l : List β} (h : v ∈ l.tail) : v ∈ l := by
  cases l with
  | nil => simp at h
  | cons a t => exact List.mem_cons_of_mem a h

theorem getD_map_range {g : ℕ → ℝ} {d j : ℕ} (h : j < d) :
    ((List.range d).map g).getD j 0 = g j := by
  rw [List.getD_eq_getElem _ _ (by simpa using h)]
  simp

theorem getD_map_finRange {n : ℕ} (s1 : JState n) {j : ℕ} (hj : j < n) :
    ((List.finRange n).map s1).getD j 0 = s1 ⟨j, hj⟩ := by
  rw [List.getD_eq_getElem _ _ (by simpa using hj)]
  simp

/-- Term-by-term bounds on a weighted sum with nonnegative weights. -/
theorem sum_map_range_bounds (W : ℕ) (a wt : ℕ → ℝ) (lo hi : ℝ)
    (ha : ∀ k, k < W → lo ≤ a k ∧ a k ≤ hi) (hw : ∀ k, k < W → 0 ≤ wt k) :
    lo * ((List.range W).map wt).sum ≤ ((List.range W).map (fun k => a k * wt k)).sum ∧
      ((List.range W).map (fun k => a k * wt k)).sum ≤ hi * ((List.range W).map wt).sum := by
  induction W with
  | zero => simp
  | succ m ih =>
      have hm := ih (fun k hk => ha k (by omega)) (fun k hk => hw k (by omega))
      have hak := ha m (by omega)
      have hwk := hw m (by omega)
      rw [List.range_succ]
      simp only [List.map_append, List.sum_append, List.map_cons, List.sum_cons,
        List.map_nil, List.sum_nil, add_zero]
      constructor <;> nlinarith [hm.1, hm.2, hak.1, hak.2, hwk]

theorem WeightedMovingFilter.addData_filteredData_length
    (f : WeightedMovingFilter ℝ) (nd : List ℝ) :
    (f.addData nd).filteredData.length = f.dataSize := by
  unfold WeightedMovingFilter.addData
  dsimp only
  split_ifs <;> simp

/-- If the queue samples and the new sample are componentwise inside
`[lo j, hi j]`, so is the filtered output of `addData` for the loop's
weights `[0.4, 0.3, 0.2, 0.1]` (a convex combination). -/
theorem WeightedMovingFilter.addData_filteredData_bound
    (f : WeightedMovingFilter ℝ) (nd : List ℝ) (lo hi : ℕ → ℝ)
    (hwts : f.weights = [0.4, 0.3, 0.2, 0.1])
    (hndl : nd.length = f.dataSize)
    (hnd : ∀ j, j < f.dataSize → lo j ≤ nd.getD j 0 ∧ nd.getD j 0 ≤ hi j)
    (hq : ∀ v ∈ f.queue, ∀ j, j < f.dataSize → lo j ≤ v.getD j 0 ∧ v.getD j 0 ≤ hi j) :
    ∀ j, j < f.dataSize →
      lo j ≤ (f.addData nd).filteredData.getD j 0 ∧
        (f.addData nd).filteredData.getD j 0 ≤ hi j := by
  intro j hj
  have hweight : ∀ q : List (List ℝ),
      (∀ v ∈ q, ∀ k, k < f.dataSize → lo k ≤ v.getD k 0 ∧ v.getD k 0 ≤ hi k) →
      f.windowSize ≤ q.length →
      lo j ≤ ((List.range f.dataSize).map (fun m => ((List.range f.windowSize).map
          (fun k => (q.reverse.getD k []).getD m 0 * f.weights.getD k 0)).sum)).getD j 0 ∧
        ((List.range f.dataSize).map (fun m => ((List.range f.windowSize).map
          (fun k => (q.reverse.getD k []).getD m 0 * f.weights.getD k 0)).sum)).getD j 0
          ≤ hi j := by
    intro q hqb hqlen
    rw [getD_map_range hj]
    have hW : f.windowSize = 4 := by
      unfold WeightedMovingFilter.windowSize
      rw [hwts]
      rfl
    have ha : ∀ k, k < f.windowSize →
        lo j ≤ (q.reverse.getD k []).getD j 0 ∧ (q.reverse.getD k []).getD j 0 ≤ hi j := by
      intro k hk
      have hkq : k < q.reverse.length := by
        rw [List.length_reverse]
        omega
      have hmem : q.reverse.getD k [] ∈ q := by
        rw [List.getD_eq_getElem _ _ hkq]
        exact List.mem_reverse.1 (List.getElem_mem _)
      exact hqb _ hmem j hj
    have hwpos : ∀ k, k < f.windowSize → 0 ≤ f.weights.getD k 0 := by
      intro k hk
      rw [hwts]
      rw [hW] at hk
      interval_cases k <;> norm_num [List.getD]
    have hsum : ((List.range f.windowSize).map (fun k => f.weights.getD k 0)).sum = 1 := by
      rw [hW, hwts]
      norm_num [List.range_succ, List.getD]
    have hb := sum_map_range_bounds f.windowSize
      (fun k => (q.reverse.getD k []).getD j 0) (fun k => f.weights.getD k 0)
      (lo j) (hi j) ha hwpos
    rw [hsum] at hb
    simpa using hb
  have hpass : lo j ≤ ((List.range f.dataSize).map
        (fun k => nd.getD k (f.filteredData.getD k 0))).getD j 0 ∧
      ((List.range f.dataSize).map
        (fun k => nd.getD k (f.filteredData.getD k 0))).getD j 0 ≤ hi j := by
    rw [getD_map_range hj]
    have h1 : nd.getD j (f.filteredData.getD j 0) = nd.getD j 0 := by
      rw [List.getD_eq_getElem _ _ (by omega : j < nd.length),
        List.getD_eq_getElem _ _ (by omega : j < nd.length)]
    rw [h1]
    exact hnd j hj
  have htail : ∀ v ∈ f.queue.tail, ∀ k, k < f.dataSize →
      lo k ≤ v.getD k 0 ∧ v.getD k 0 ≤ hi k :=
    fun v hv => hq v (mem_of_tail hv)
  have happ : ∀ q0 : List (List ℝ),
      (∀ v ∈ q0, ∀ k, k < f.dataSize → lo k ≤ v.getD k 0 ∧ v.getD k 0 ≤ hi k) →
      ∀ v ∈ q0 ++ [nd], ∀ k, k < f.dataSize → lo k ≤ v.getD k 0 ∧ v.getD k 0 ≤ hi k := by
    intro q0 hq0 v hv
    rcases List.mem_append.1 hv with hv | hv
    · exact hq0 v hv
    · rw [List.mem_singleton.1 hv]
      exact hnd
  unfold WeightedMovingFilter.addData
  dsimp only
  rcases le_or_lt f.windowSize f.queue.length with hcase | hcase
  · rw [if_pos hcase]
    by_cases houter : (f.queue.tail ++ [nd]).length < f.windowSize
    · rw [if_pos houter]
      exact hpass
    · rw [if_neg houter]
      exact hweight (f.queue.tail ++ [nd]) (happ _ htail) (by omega)
  · rw [if_neg (not_le.2 hcase)]
    by_cases houter : (f.queue ++ [nd]).length < f.windowSize
    · rw [if_pos houter]
      exact hpass
    · rw [if_neg houter]
      exact hweight (f.queue ++ [nd]) (happ _ hq) (by omega)

/-- The `solveAndFilter` commit stays inside the joint limits: the CCD solve
clamps every committed angle, and the weighted-moving re-commit is a convex
combination of in-limit samples. -/
theorem solveAndFilter_inLimits {n : ℕ} (sc : Scene n) (tp : Vec3) (tq : Quat)
    (filter : WeightedMovingFilter ℝ) (s : JState n)
    (hwf : LimitsWF sc) (hs : InLimits sc s)
    (hwts : filter.weights = [0.4, 0.3, 0.2, 0.1])
    (hds : filter.dataSize = n)
    (hq : ∀ v ∈ filter.queue, ∀ j, ∀ hj : j < n,
        limitLower (sc.joints ⟨j, hj⟩) ≤ v.getD j 0 ∧
          v.getD j 0 ≤ limitUpper (sc.joints ⟨j, hj⟩)) :
    InLimits sc (solveAndFilter sc tp tq filter s).1 := by
  have hs1 : InLimits sc (CCDIK.solveCCDIK sc tp tq 20 s) :=
    CCDIK.solveCCDIK_inLimits 20 hwf hs
  set s1 := CCDIK.solveCCDIK sc tp tq 20 s with hs1def
  set lo : ℕ → ℝ := fun j => if hj : j < n then limitLower (sc.joints ⟨j, hj⟩) else 0
    with hlodef
  set hi : ℕ → ℝ := fun j => if hj : j < n then limitUpper (sc.joints ⟨j, hj⟩) else 0
    with hhidef
  have hsolved : ∀ j, j < filter.dataSize →
      lo j ≤ ((List.finRange n).map s1).getD j 0 ∧
        ((List.finRange n).map s1).getD j 0 ≤ hi j := by
    intro j hj
    rw [hds] at hj
    rw [getD_map_finRange s1 hj, hlodef, hhidef]
    simp only [dif_pos hj]
    exact hs1 ⟨j, hj⟩
  have hqbound : ∀ v ∈ filter.queue, ∀ j, j < filter.dataSize →
      lo j ≤ v.getD j 0 ∧ v.getD j 0 ≤ hi j := by
    intro v hv j hj
    rw [hds] at hj
    rw [hlodef, hhidef]
    simp only [dif_pos hj]
    exact hq v hv j hj
  have hbound := WeightedMovingFilter.addData_filteredData_bound filter
    ((List.finRange n).map s1) lo hi hwts (by simp [hds]) hsolved hqbound
  have hflen := WeightedMovingFilter.addData_filteredData_length filter
    ((List.finRange n).map s1)
  intro i
  show limitLower (sc.joints i) ≤ (solveAndFilter sc tp tq filter s).1 i ∧
    (solveAndFilter sc tp tq filter s).1 i ≤ limitUpper (sc.joints i)
  unfold solveAndFilter
  dsimp only
  rw [← hs1def]
  have hilen : (i : ℕ) < ((filter.addData ((List.finRange n).map s1)).filteredData).length := by
    rw [hflen, hds]
    exact i.isLt
  rw [dif_pos hilen]
  have hgd : ((filter.addData ((List.finRange n).map s1)).filteredData).get ⟨i, hilen⟩ =
      ((filter.addData ((List.finRange n).map s1)).filteredData).getD i 0 := by
    rw [List.getD_eq_getElem _ _ hilen]
    rfl
  rw [hgd]
  have hb := hbound i (by rw [hds]; exact i.isLt)
  rw [hlodef, hhidef] at hb
  simpa only [dif_pos i.isLt, Fin.eta] using hb

/-- `curlToAngle` lands inside `[lower, upper]` whenever the limits straddle
the open (zero) pose and the curl is normalized. -/
theorem curlToAngle_mem (l : JointLimit) (curl : ℝ)
    (hlo : l.lower ≤ 0) (hhi : 0 ≤ l.upper) (hc0 : 0 ≤ curl) (hc1 : curl ≤ 1) :
    l.lower ≤ curlToAngle (some l) curl ∧ curlToAngle (some l) curl ≤ l.upper := by
  show l.lower ≤ (if |l.upper| < |l.lower| then l.lower * curl else l.upper * curl) ∧
    (if |l.upper| < |l.lower| then l.lower * curl else l.upper * curl) ≤ l.upper
  split_ifs
  · constructor <;> nlinarith
  · constructor <;> nlinarith

/-- **C1** (joint-limit invariant): every angle the pipeline commits stays in
the joint's configured `[lower, upper]` (with `±π` as defaults when a joint
has no limit): the angles written by `solveCCDIK`; the weighted-moving
filtered angles re-committed by `solveAndFilter` (a convex combination of
in-limit samples under the loop's weights, provided the filter window holds
in-limit samples); the curl angles produced by `curlToAngle` (when the
joint's limits straddle the open pose `0` and the curl is normalized); and
the thumb abduction commit, which is clamped outright. -/
theorem c1_joint_limit_invariant :
    (∀ (n : ℕ) (sc : Scene n) (tp : Vec3) (tq : Quat) (fuel : ℕ) (s : JState n),
        LimitsWF sc → InLimits sc s → InLimits sc (CCDIK.solveCCDIK sc tp tq fuel s)) ∧
    (∀ (n : ℕ) (sc : Scene n) (tp : Vec3) (tq : Quat)
        (filter : WeightedMovingFilter ℝ) (s : JState n),
        LimitsWF sc → InLimits sc s →
        filter.weights = [0.4, 0.3, 0.2, 0.1] → filter.dataSize = n →
        (∀ v ∈ filter.queue, ∀ j, ∀ hj : j < n,
            limitLower (sc.joints ⟨j, hj⟩) ≤ v.getD j 0 ∧
              v.getD j 0 ≤ limitUpper (sc.joints ⟨j, hj⟩)) →
        InLimits sc (solveAndFilter sc tp tq filter s).1) ∧
    (∀ (l : JointLimit) (curl : ℝ), l.lower ≤ 0 → 0 ≤ l.upper → 0 ≤ curl → curl ≤ 1 →
        l.lower ≤ curlToAngle (some l) curl ∧ curlToAngle (some l) curl ≤ l.upper) ∧
    (∀ (l : JointLimit) (abd : ℝ), l.lower ≤ l.upper →
        clamp (abd * min |l.lower| |l.upper|) l.lower l.upper ∈
          Set.Icc l.lower l.upper) :=
  ⟨fun _ _ _ _ fuel _ hwf hs => CCDIK.solveCCDIK_inLimits fuel hwf hs,
   fun _ sc tp tq filter s hwf hs hw hd hq =>
     solveAndFilter_inLimits sc tp tq filter s hwf hs hw hd hq,
   curlToAngle_mem,
   fun _ _ h => clamp_mem _ h⟩

/-- Witness for C1: the invariant instantiated on concrete scenes, the
control loop's joint filter, and concrete finger limits. -/
theorem c1_witness :
    (LimitsWF demoScene ∧ InLimits demoScene (zeroState 1) ∧
      InLimits demoScene (CCDIK.solveCCDIK demoScene ⟨0, 1, 0⟩ Quat.one 25 (zeroState 1))) ∧
    (LimitsWF demoScene7 ∧ InLimits demoScene7 (zeroState 7) ∧
      InLimits demoScene7
        (solveAndFilter demoScene7 ⟨0, 0, 0⟩ Quat.one jointFilter (zeroState 7)).1) ∧
    ((-1 : ℝ) ≤ curlToAngle (some ⟨-1, 1⟩) 0.5 ∧ curlToAngle (some ⟨-1, 1⟩) 0.5 ≤ 1) ∧
    clamp (2 * min |(-1 : ℝ)| |(1 : ℝ)|) (-1) 1 ∈ Set.Icc (-1 : ℝ) 1 := by
  have hwf1 : LimitsWF demoScene := by
    intro i
    show limitLower ⟨⟨0, 0, 1⟩, none⟩ ≤ limitUpper ⟨⟨0, 0, 1⟩, none⟩
    unfold limitLower limitUpper
    dsimp only
    linarith [Real.pi_pos]
  have hin1 : InLimits demoScene (zeroState 1) := by
    intro i
    show limitLower ⟨⟨0, 0, 1⟩, none⟩ ≤ 0 ∧ (0 : ℝ) ≤ limitUpper ⟨⟨0, 0, 1⟩, none⟩
    unfold limitLower limitUpper
    dsimp only
    constructor <;> linarith [Real.pi_pos]
  have hwf7 : LimitsWF demoScene7 := by
    intro i
    show limitLower ⟨⟨0, 0, 1⟩, some ⟨-2, 2⟩⟩ ≤ limitUpper ⟨⟨0, 0, 1⟩, some ⟨-2, 2⟩⟩
    unfold limitLower limitUpper
    norm_num
  have hin7 : InLimits demoScene7 (zeroState 7) := by
    intro i
    show limitLower ⟨⟨0, 0, 1⟩, some ⟨-2, 2⟩⟩ ≤ 0 ∧
      (0 : ℝ) ≤ limitUpper ⟨⟨0, 0, 1⟩, some ⟨-2, 2⟩⟩
    unfold limitLower limitUpper
    norm_num
  have hqnil : ∀ v ∈ jointFilter.queue, ∀ j, ∀ hj : j < 7,
      limitLower (demoScene7.joints ⟨j, hj⟩) ≤ v.getD j 0 ∧
        v.getD j 0 ≤ limitUpper (demoScene7.joints ⟨j, hj⟩) := by
    intro v hv
    simp [jointFilter, WeightedMovingFilter.mk0] at hv
  refine ⟨⟨hwf1, hin1, ?_⟩, ⟨hwf7, hin7, ?_⟩, ?_, ?_⟩
  · exact c1_joint_limit_invariant.1 1 demoScene ⟨0, 1, 0⟩ Quat.one 25 (zeroState 1) hwf1 hin1
  · exact c1_joint_limit_invariant.2.1 7 demoScene7 ⟨0, 0, 0⟩ Quat.one jointFilter
      (zeroState 7) hwf7 hin7 rfl rfl hqnil
  · exact c1_joint_limit_invariant.2.2.1 ⟨-1, 1⟩ 0.5 (by norm_num) (by norm_num)
      (by norm_num) (by norm_num)
  · exact c1_joint_limit_invariant.2.2.2 ⟨-1, 1⟩ 2 (by norm_num)

/-! ## C7: exponential and slerp filter behaviour -/

theorem clamp_of_mem {x lo hi : ℝ} (h1 : lo ≤ x) (h2 : x ≤ hi) : clamp x lo hi = x := by
  unfold clamp
  rw [min_eq_right h2, max_eq_right h1]

theorem Vec3.length_smul (v : Vec3) (c : ℝ) : (v.smul c).length = |c| * v.length := by
  unfold Vec3.length Vec3.lengthSq Vec3.dot Vec3.smul
  dsimp only
  rw [show v.x * c * (v.x * c) + v.y * c * (v.y * c) + v.z * c * (v.z * c) =
    c ^ 2 * (v.x * v.x + v.y * v.y + v.z * v.z) from by ring]
  rw [Real.sqrt_mul (sq_nonneg c), Real.sqrt_sq_eq_abs]

theorem Vec3.lerp_sub (a b : Vec3) (alpha : ℝ) :
    (a.lerp b alpha).sub b = (a.sub b).smul (1 - alpha) := by
  ext <;> (unfold Vec3.lerp Vec3.sub Vec3.smul; dsimp only; ring)

/-- One exponential-filter update against a constant target shrinks the
distance to the target by the exact factor `|1 - alpha|`. -/
theorem lerp_distance_shrink (a b : Vec3) (alpha : ℝ) :
    (a.lerp b alpha).distanceTo b = |1 - alpha| * a.distanceTo b := by
  unfold Vec3.distanceTo
  rw [Vec3.lerp_sub, Vec3.length_smul]

theorem Quat.dot_comb (q p r : Quat) (a b : ℝ) :
    ((q.smul a).add (p.smul b)).dot r = a * q.dot r + b * p.dot r := by
  unfold Quat.dot Quat.add Quat.smul
  dsimp only
  ring

/-- The core slerp identity: under the main branch's hypotheses the slerp
result's dot product with the target is `cos ((1 - t) * arccos (q ⬝ p))`. -/
theorem slerp_dot (q p : Quat) (t : ℝ)
    (hp : p.lengthSq = 1)
    (hd0 : 0 ≤ q.dot p) (hd1 : q.dot p < 1)
    (heps : Quat.jsEpsilon < 1 - q.dot p * q.dot p)
    (ht0 : t ≠ 0) (ht1 : t ≠ 1) :
    (q.slerp p t).dot p = Real.cos ((1 - t) * Real.arccos (q.dot p)) := by
  set c := q.dot p with hc
  set θ := Real.arccos c with hθ
  have hcm1 : (-1 : ℝ) ≤ c := le_trans (by norm_num) hd0
  have hsin : Real.sin θ = Real.sqrt (1 - c ^ 2) := Real.sin_arccos c
  have hsq : (0 : ℝ) < 1 - c * c := by
    have : (0 : ℝ) < Quat.jsEpsilon := by
      unfold Quat.jsEpsilon
      positivity
    linarith
  have hsqrtpos : 0 < Real.sqrt (1 - c * c) := Real.sqrt_pos.2 hsq
  have hsinθpos : 0 < Real.sin θ := by
    rw [hsin]
    rw [show (1 : ℝ) - c ^ 2 = 1 - c * c from by ring]
    exact hsqrtpos
  have hcosθ : Real.cos θ = c := Real.cos_arccos hcm1 (le_of_lt hd1)
  have hhalf : jsAtan2 (Real.sqrt (1 - c * c)) c = θ := by
    unfold jsAtan2
    rcases lt_or_eq_of_le hd0 with hpos | hzero
    · rw [if_pos hpos, hθ, Real.arccos_eq_arctan hpos]
      rw [show (1 : ℝ) - c ^ 2 = 1 - c * c from by ring]
    · rw [if_neg (by rw [← hzero]; exact lt_irrefl 0),
        if_neg (by rw [← hzero]; exact lt_irrefl 0)]
      rw [if_pos (by rw [← hzero]; norm_num [hsqrtpos])]
      rw [hθ, ← hzero, Real.arccos_zero]
  unfold Quat.slerp
  rw [if_neg ht0, if_neg ht1]
  dsimp only
  rw [if_neg (not_lt.2 hd0), if_neg (not_lt.2 hd0)]
  rw [if_neg (not_le.2 hd1)]
  rw [if_neg (not_le.2 heps)]
  rw [Quat.dot_comb]
  rw [hhalf]
  have hpp : p.dot p = 1 := hp
  rw [hpp]
  have hsin2 : Real.sqrt (1 - c * c) = Real.sin θ := by
    rw [hsin, show (1 : ℝ) - c ^ 2 = 1 - c * c from by ring]
  rw [hsin2]
  have htθ : t * θ = θ - (1 - t) * θ := by ring
  rw [htθ, Real.sin_sub, hcosθ]
  field_simp
  ring

/-- Under the same hypotheses, one slerp update against a constant target
shrinks the angle to the target by the exact factor `1 - t`. -/
theorem slerp_angle_shrink (q p : Quat) (t : ℝ)
    (hp : p.lengthSq = 1)
    (hd0 : 0 ≤ q.dot p) (hd1 : q.dot p < 1)
    (heps : Quat.jsEpsilon < 1 - q.dot p * q.dot p)
    (ht0 : 0 < t) (ht1 : t ≤ 1) :
    (q.slerp p t).angleTo p = (1 - t) * q.angleTo p := by
  rcases eq_or_lt_of_le ht1 with rfl | htlt
  · have hslerp : q.slerp p 1 = p := by
      unfold Quat.slerp
      rw [if_neg (by norm_num), if_pos rfl]
    rw [hslerp]
    unfold Quat.angleTo
    rw [show p.dot p = 1 from hp]
    rw [clamp_of_mem (by norm_num) (by norm_num), abs_one, Real.arccos_one]
    ring
  · set c := q.dot p with hc
    set θ := Real.arccos c with hθ
    have hcm1 : (-1 : ℝ) ≤ c := le_trans (by norm_num) hd0
    have hθ0 : 0 < θ := Real.arccos_pos.2 hd1
    have hθhalf : θ ≤ Real.pi / 2 := Real.arccos_le_pi_div_two.2 hd0
    have hfac0 : 0 ≤ (1 - t) * θ := by nlinarith
    have hfachalf : (1 - t) * θ < Real.pi / 2 := by nlinarith
    have hdot := slerp_dot q p t hp hd0 hd1 heps (ne_of_gt ht0) (ne_of_lt htlt)
    unfold Quat.angleTo
    rw [hdot, ← hc, ← hθ]
    have hcos1 : Real.cos ((1 - t) * θ) ≤ 1 := Real.cos_le_one _
    have hcos0 : 0 ≤ Real.cos ((1 - t) * θ) := by
      apply Real.cos_nonneg_of_mem_Icc
      constructor
      · linarith [Real.pi_pos]
      · linarith
    rw [clamp_of_mem (by linarith) hcos1, abs_of_nonneg hcos0]
    rw [Real.arccos_cos hfac0 (by linarith [Real.pi_pos])]
    rw [clamp_of_mem hcm1 (le_of_lt hd1), abs_of_nonneg hd0, ← hθ]
    ring

/-- **C7** (filter behaviour): the first `update` after construction or
`reset()` returns exactly the raw target sample for both the vector
exponential filter and the quaternion slerp filter; and under a constant
target with `alpha ∈ (0, 1]` each update shrinks the distance (resp. the
angle, away from slerp's degenerate fallback branches) to the target by the
exact factor `1 - alpha`, hence monotonically. -/
theorem c7_filters :
    (∀ (alpha : ℝ) (target : Vec3),
        ((ExponentialSmoother.mk0 alpha).update target).1 = target) ∧
    (∀ (f : ExponentialSmoother) (target : Vec3),
        ((f.reset none).update target).1 = target) ∧
    (∀ (alpha : ℝ) (target : Quat),
        ((QuaternionSmoother.mk0 alpha).update target).1 = target) ∧
    (∀ (f : QuaternionSmoother) (target : Quat),
        ((f.reset none).update target).1 = target) ∧
    (∀ (alpha : ℝ) (v target : Vec3), 0 < alpha → alpha ≤ 1 →
        ((⟨alpha, some v⟩ : ExponentialSmoother).update target).1.distanceTo target =
            (1 - alpha) * v.distanceTo target ∧
          ((⟨alpha, some v⟩ : ExponentialSmoother).update target).1.distanceTo target ≤
            v.distanceTo target) ∧
    (∀ (alpha : ℝ) (q target : Quat), 0 < alpha → alpha ≤ 1 →
        target.lengthSq = 1 → 0 ≤ q.dot target → q.dot target < 1 →
        Quat.jsEpsilon < 1 - q.dot target * q.dot target →
        ((⟨alpha, some q⟩ : QuaternionSmoother).update target).1.angleTo target =
            (1 - alpha) * q.angleTo target ∧
          ((⟨alpha, some q⟩ : QuaternionSmoother).update target).1.angleTo target ≤
            q.angleTo target) := by
  refine ⟨fun _ _ => rfl, fun _ _ => rfl, fun _ _ => rfl, fun _ _ => rfl, ?_, ?_⟩
  · intro alpha v target h0 h1
    have heq : ((⟨alpha, some v⟩ : ExponentialSmoother).update target).1.distanceTo target =
        (1 - alpha) * v.distanceTo target := by
      show (v.lerp target alpha).distanceTo target = _
      rw [lerp_distance_shrink, abs_of_nonneg (by linarith)]
    refine ⟨heq, ?_⟩
    rw [heq]
    have hd : 0 ≤ v.distanceTo target := Real.sqrt_nonneg _
    nlinarith
  · intro alpha q target h0 h1 hp hd0 hd1 heps
    have heq : ((⟨alpha, some q⟩ : QuaternionSmoother).update target).1.angleTo target =
        (1 - alpha) * q.angleTo target := by
      show (q.slerp target alpha).angleTo target = _
      exact slerp_angle_shrink q target alpha hp hd0 hd1 heps h0 h1
    refine ⟨heq, ?_⟩
    rw [heq]
    have ha : 0 ≤ q.angleTo target := by
      unfold Quat.angleTo
      have := Real.arccos_nonneg |clamp (q.dot target) (-1) 1|
      linarith
    nlinarith

/-- Witness for C7: the shrink factors evaluated on a concrete vector pair
and a concrete unit-quaternion pair. -/
theorem c7_witness :
    ((0 : ℝ) < 0.5 ∧ (0.5 : ℝ) ≤ 1 ∧
      ((⟨0.5, some ⟨0, 0, 0⟩⟩ : ExponentialSmoother).update ⟨2, 0, 0⟩).1.distanceTo
          ⟨2, 0, 0⟩ =
        (1 - 0.5) * (Vec3.mk 0 0 0).distanceTo ⟨2, 0, 0⟩) ∧
    ((Quat.mk (3 / 5) 0 0 (4 / 5)).lengthSq = 1 ∧
      0 ≤ Quat.one.dot ⟨3 / 5, 0, 0, 4 / 5⟩ ∧
      Quat.one.dot ⟨3 / 5, 0, 0, 4 / 5⟩ < 1 ∧
      Quat.jsEpsilon <
        1 - Quat.one.dot ⟨3 / 5, 0, 0, 4 / 5⟩ * Quat.one.dot ⟨3 / 5, 0, 0, 4 / 5⟩ ∧
      ((⟨0.5, some Quat.one⟩ : QuaternionSmoother).update ⟨3 / 5, 0, 0, 4 / 5⟩).1.angleTo
          ⟨3 / 5, 0, 0, 4 / 5⟩ =
        (1 - 0.5) * Quat.one.angleTo ⟨3 / 5, 0, 0, 4 / 5⟩) := by
  have hlen : (Quat.mk (3 / 5) 0 0 (4 / 5)).lengthSq = 1 := by
    unfold Quat.lengthSq Quat.dot
    norm_num
  have hdot : Quat.one.dot ⟨3 / 5, 0, 0, 4 / 5⟩ = 4 / 5 := by
    unfold Quat.one Quat.dot
    norm_num
  have heps : Quat.jsEpsilon <
      1 - Quat.one.dot ⟨3 / 5, 0, 0, 4 / 5⟩ * Quat.one.dot ⟨3 / 5, 0, 0, 4 / 5⟩ := by
    rw [hdot]
    unfold Quat.jsEpsilon
    rw [show ((2 : ℝ) ^ (-52 : ℤ)) = 1 / 2 ^ (52 : ℕ) from by
      rw [zpow_neg]
      norm_num]
    norm_num
  refine ⟨⟨by norm_num, by norm_num,
    (c7_filters.2.2.2.2.1 0.5 ⟨0, 0, 0⟩ ⟨2, 0, 0⟩ (by norm_num) (by norm_num)).1⟩,
    hlen, by rw [hdot]; norm_num, by rw [hdot]; norm_num, heps,
    (c7_filters.2.2.2.2.2 0.5 Quat.one ⟨3 / 5, 0, 0, 4 / 5⟩ (by norm_num) (by norm_num)
      hlen (by rw [hdot]; norm_num) (by rw [hdot]; norm_num) heps).1⟩

/-! ## C5: two-bone IK geometry -/

theorem Vec3.lengthSq_nonneg (v : Vec3) : 0 ≤ v.lengthSq := by
  unfold Vec3.lengthSq Vec3.dot
  nlinarith [sq_nonneg v.x, sq_nonneg v.y, sq_nonneg v.z]

theorem Vec3.length_nonneg (v : Vec3) : 0 ≤ v.length := Real.sqrt_nonneg _

theorem Vec3.sq_length (v : Vec3) : v.length ^ 2 = v.lengthSq :=
  Real.sq_sqrt v.lengthSq_nonneg

theorem Vec3.length_divideScalar (v : Vec3) (c : ℝ) :
    (v.divideScalar c).length = v.length / |c| := by
  rcases eq_or_ne c 0 with rfl | hc
  · unfold Vec3.length Vec3.lengthSq Vec3.dot Vec3.divideScalar
    simp [Real.sqrt_zero]
  · unfold Vec3.length Vec3.lengthSq Vec3.dot Vec3.divideScalar
    dsimp only
    rw [show v.x / c * (v.x / c) + v.y / c * (v.y / c) + v.z / c * (v.z / c) =
      (v.x * v.x + v.y * v.y + v.z * v.z) * (1 / c) ^ 2 from by ring]
    rw [Real.sqrt_mul (by nlinarith [sq_nonneg v.x, sq_nonneg v.y, sq_nonneg v.z])]
    rw [Real.sqrt_sq_eq_abs, abs_div, abs_one]
    ring

theorem Vec3.normalize_length {v : Vec3} (h : v.length ≠ 0) :
    v.normalize.length = 1 := by
  unfold Vec3.normalize
  rw [if_neg h, Vec3.length_divideScalar, abs_of_nonneg v.length_nonneg]
  exact div_self h

theorem Vec3.dot_divideScalar (v w : Vec3) (c : ℝ) :
    (v.divideScalar c).dot w = v.dot w / c := by
  unfold Vec3.dot Vec3.divideScalar
  dsimp only
  ring

theorem Vec3.normalize_dot (v w : Vec3) (h : v.dot w = 0) :
    v.normalize.dot w = 0 := by
  unfold Vec3.normalize
  rw [Vec3.dot_divideScalar, h, zero_div]

theorem Vec3.cross_dot_right (a b : Vec3) : (a.cross b).dot b = 0 := by
  unfold Vec3.cross Vec3.dot
  dsimp only
  ring

/-- Lagrange identity for the embedded cross product. -/
theorem Vec3.cross_lengthSq (a b : Vec3) :
    (a.cross b).lengthSq = a.lengthSq * b.lengthSq - (a.dot b) ^ 2 := by
  unfold Vec3.cross Vec3.lengthSq Vec3.dot
  dsimp only
  ring

theorem Vec3.addScaled_sub (root d : Vec3) (c : ℝ) :
    (root.addScaledVector d c).sub root = d.smul c := by
  ext <;> (unfold Vec3.addScaledVector Vec3.add Vec3.smul Vec3.sub; dsimp only; ring)

theorem Vec3.dot_addScaled (a b d : Vec3) (c : ℝ) :
    (a.addScaledVector b c).dot d = a.dot d + c * b.dot d := by
  unfold Vec3.addScaledVector Vec3.add Vec3.smul Vec3.dot
  dsimp only
  ring

theorem Vec3.lengthSq_addScaled_smul (d p : Vec3) (x y : ℝ)
    (hd : d.lengthSq = 1) (hp : p.lengthSq = 1) (hdp : d.dot p = 0) :
    ((d.smul x).addScaledVector p y).lengthSq = x ^ 2 + y ^ 2 := by
  unfold Vec3.lengthSq Vec3.dot Vec3.addScaledVector Vec3.add Vec3.smul at *
  dsimp only at *
  linear_combination x ^ 2 * hd + y ^ 2 * hp + 2 * x * y * hdp

theorem Vec3.length_eq_one_of_lengthSq {v : Vec3} (h : v.lengthSq = 1) :
    v.length = 1 := by
  unfold Vec3.length
  rw [h, Real.sqrt_one]

theorem Vec3.lengthSq_eq_one_of_length {v : Vec3} (h : v.length = 1) :
    v.lengthSq = 1 := by
  have := v.sq_length
  rw [h] at this
  linarith [this.symm]

/-- The Gram–Schmidt `perpAxis` of `solveTwoBoneIK` is a unit vector
perpendicular to the (unit) target direction, in both the generic and the
degenerate-pole branches. -/
theorem twoBonePerpAxis_spec (root pole dir : Vec3) (hdir : dir.length = 1) :
    (twoBonePerpAxis root pole dir).length = 1 ∧
      (twoBonePerpAxis root pole dir).dot dir = 0 := by
  have hdirSq : dir.lengthSq = 1 := Vec3.lengthSq_eq_one_of_length hdir
  unfold twoBonePerpAxis
  dsimp only
  have hperp0 : ((pole.sub root).addScaledVector dir
      (-((pole.sub root).dot dir))).dot dir = 0 := by
    rw [Vec3.dot_addScaled]
    have : dir.dot dir = 1 := hdirSq
    rw [this]
    ring
  split_ifs with hdeg hseed
  · -- degenerate pole, seed (1,0,0)
    have hcrossSq : ((Vec3.mk 1 0 0).cross dir).lengthSq =
        1 - ((Vec3.mk 1 0 0).dot dir) ^ 2 := by
      rw [Vec3.cross_lengthSq, hdirSq]
      unfold Vec3.lengthSq Vec3.dot
      norm_num
    have hdy : 0.9 < |dir.y| := by
      have : dir.dot ⟨0, 1, 0⟩ = dir.y := by
        unfold Vec3.dot
        norm_num
      rwa [this] at hseed
    have hdx : ((Vec3.mk 1 0 0).dot dir) ^ 2 < 0.19 := by
      have hdxv : (Vec3.mk 1 0 0).dot dir = dir.x := by
        unfold Vec3.dot
        norm_num
      have hsum : dir.x * dir.x + dir.y * dir.y + dir.z * dir.z = 1 := hdirSq
      have hy2 : 0.81 < dir.y ^ 2 := by nlinarith [abs_nonneg dir.y, sq_abs dir.y]
      rw [hdxv]
      nlinarith [sq_nonneg dir.z]
    have hpos : 0 < ((Vec3.mk 1 0 0).cross dir).lengthSq := by
      rw [hcrossSq]
      nlinarith
    have hlen : ((Vec3.mk 1 0 0).cross dir).length ≠ 0 := by
      unfold Vec3.length
      positivity
    exact ⟨Vec3.normalize_length hlen,
      Vec3.normalize_dot _ _ (Vec3.cross_dot_right _ dir)⟩
  · -- degenerate pole, seed (0,1,0)
    have hcrossSq : ((Vec3.mk 0 1 0).cross dir).lengthSq =
        1 - ((Vec3.mk 0 1 0).dot dir) ^ 2 := by
      rw [Vec3.cross_lengthSq, hdirSq]
      unfold Vec3.lengthSq Vec3.dot
      norm_num
    have hdy : |dir.dot ⟨0, 1, 0⟩| ≤ 0.9 := le_of_not_lt hseed
    have hdy2 : ((Vec3.mk 0 1 0).dot dir) ^ 2 ≤ 0.81 := by
      have hcomm : (Vec3.mk 0 1 0).dot dir = dir.dot ⟨0, 1, 0⟩ := by
        unfold Vec3.dot
        ring
      rw [hcomm]
      nlinarith [abs_nonneg (dir.dot ⟨0, 1, 0⟩), sq_abs (dir.dot ⟨0, 1, 0⟩)]
    have hpos : 0 < ((Vec3.mk 0 1 0).cross dir).lengthSq := by
      rw [hcrossSq]
      nlinarith
    have hlen : ((Vec3.mk 0 1 0).cross dir).length ≠ 0 := by
      unfold Vec3.length
      positivity
    exact ⟨Vec3.normalize_length hlen,
      Vec3.normalize_dot _ _ (Vec3.cross_dot_right _ dir)⟩
  · -- generic branch
    have hpos : 0 < ((pole.sub root).addScaledVector dir
        (-((pole.sub root).dot dir))).lengthSq := by
      have h1 := le_of_not_lt hdeg
      have h2 := ((pole.sub root).addScaledVector dir
        (-((pole.sub root).dot dir))).lengthSq_nonneg
      nlinarith
    have hlen : ((pole.sub root).addScaledVector dir
        (-((pole.sub root).dot dir))).length ≠ 0 := by
      unfold Vec3.length
      positivity
    exact ⟨Vec3.normalize_length hlen, Vec3.normalize_dot _ _ hperp0⟩

/-- **C5** (unreachable-goal clamping): for every goal farther from the root
than the total arm reach `L1 + L2`, `solveTwoBoneIK` reports
`reachable = false` instead of failing, the effective target distance used by
the angular math is clamped to `(L1 + L2) × 0.999`, the reported clamped
target sits exactly at that distance from the root, and the elbow stays
exactly at distance `L1` from the root — no divergent output. -/
theorem c5_unreachable_clamp (root target pole : Vec3) (L1 L2 : ℝ)
    (hL1 : 0 < L1) (hL2 : 0 < L2) (hLmin : 0.001 ≤ L1 + L2)
    (hmm : |L1 - L2| * 1.001 ≤ (L1 + L2) * 0.999)
    (hfar : L1 + L2 < (target.sub root).length) :
    ¬ (solveTwoBoneIK root target pole L1 L2).reachable ∧
      twoBoneClampedDist ((target.sub root).length) L1 L2 = (L1 + L2) * 0.999 ∧
      ((solveTwoBoneIK root target pole L1 L2).clampedTarget.sub root).length =
        (L1 + L2) * 0.999 ∧
      ((solveTwoBoneIK root target pole L1 L2).elbowPos.sub root).length = L1 := by
  set dist := (target.sub root).length with hdist
  have hsum : 0 < L1 + L2 := by linarith
  have hmaxlt : (L1 + L2) * 0.999 < dist := by nlinarith
  have hclamp : twoBoneClampedDist dist L1 L2 = (L1 + L2) * 0.999 := by
    unfold twoBoneClampedDist
    dsimp only
    rw [min_eq_left (le_of_lt hmaxlt), max_eq_right hmm]
  have hdistpos : dist ≠ 0 := by
    intro h
    rw [h] at hmaxlt
    nlinarith
  have hnotsmall : ¬ dist < 0.001 := by
    push_neg
    linarith
  have hdirlen : (target.sub root).normalize.length = 1 :=
    Vec3.normalize_length (by rw [← hdist]; exact hdistpos)
  obtain ⟨hperplen, hperpdot⟩ :=
    twoBonePerpAxis_spec root pole ((target.sub root).normalize) hdirlen
  have hdirSq : (target.sub root).normalize.lengthSq = 1 :=
    Vec3.lengthSq_eq_one_of_length hdirlen
  have hperpSq : (twoBonePerpAxis root pole ((target.sub root).normalize)).lengthSq = 1 :=
    Vec3.lengthSq_eq_one_of_length hperplen
  have hdotsymm : ((target.sub root).normalize).dot
      (twoBonePerpAxis root pole ((target.sub root).normalize)) = 0 := by
    have hsymm : ∀ a b : Vec3, a.dot b = b.dot a := by
      intro a b
      unfold Vec3.dot
      ring
    rw [hsymm]
    exact hperpdot
  unfold solveTwoBoneIK
  dsimp only
  rw [if_neg hnotsmall]
  rw [← hdist, hclamp]
  refine ⟨?_, rfl, ?_, ?_⟩
  · exact not_le.2 hmaxlt
  · rw [Vec3.addScaled_sub, Vec3.length_smul, hdirlen]
    rw [abs_of_nonneg (by nlinarith)]
    ring
  · set angleA := Real.arccos (max (-1) (min 1
      ((L1 * L1 + (L1 + L2) * 0.999 * ((L1 + L2) * 0.999) - L2 * L2) /
        (2 * L1 * ((L1 + L2) * 0.999))))) with hangleA
    have hinnerSq : ((((target.sub root).normalize).smul (Real.cos angleA)).addScaledVector
        (twoBonePerpAxis root pole ((target.sub root).normalize))
        (Real.sin angleA)).lengthSq = 1 := by
      rw [Vec3.lengthSq_addScaled_smul _ _ _ _ hdirSq hperpSq hdotsymm]
      rw [add_comm]
      exact Real.sin_sq_add_cos_sq angleA
    have hinnerlen : ((((target.sub root).normalize).smul (Real.cos angleA)).addScaledVector
        (twoBonePerpAxis root pole ((target.sub root).normalize))
        (Real.sin angleA)).length = 1 :=
      Vec3.length_eq_one_of_lengthSq hinnerSq
    rw [Vec3.addScaled_sub, Vec3.length_smul]
    rw [Vec3.normalize_length (by rw [hinnerlen]; norm_num)]
    rw [abs_of_pos hL1]
    ring

/-- Witness for C5: the spec's concrete numbers — a goal 1 m from the root
against the G1 arm's reach `0.25 + 0.218 = 0.468` m. -/
theorem c5_witness :
    ((0 : ℝ) < 0.25 ∧ (0 : ℝ) < 0.218 ∧ (0.001 : ℝ) ≤ 0.25 + 0.218 ∧
      |(0.25 : ℝ) - 0.218| * 1.001 ≤ ((0.25 : ℝ) + 0.218) * 0.999 ∧
      (0.25 : ℝ) + 0.218 < ((Vec3.mk 1 0 0).sub ⟨0, 0, 0⟩).length) ∧
    ¬ (solveTwoBoneIK ⟨0, 0, 0⟩ ⟨1, 0, 0⟩ ⟨0, 0.6, 0⟩ 0.25 0.218).reachable ∧
      twoBoneClampedDist (((Vec3.mk 1 0 0).sub ⟨0, 0, 0⟩).length) 0.25 0.218 =
        ((0.25 : ℝ) + 0.218) * 0.999 := by
  have hlen : ((Vec3.mk 1 0 0).sub ⟨0, 0, 0⟩).length = 1 := by
    unfold Vec3.sub Vec3.length Vec3.lengthSq Vec3.dot
    norm_num
  have habs : |(0.25 : ℝ) - 0.218| * 1.001 ≤ ((0.25 : ℝ) + 0.218) * 0.999 := by
    rw [show (0.25 : ℝ) - 0.218 = 0.032 from by norm_num,
      abs_of_nonneg (by norm_num : (0 : ℝ) ≤ 0.032)]
    norm_num
  have hfar : (0.25 : ℝ) + 0.218 < ((Vec3.mk 1 0 0).sub ⟨0, 0, 0⟩).length := by
    rw [hlen]
    norm_num
  obtain ⟨h1, h2, _, _⟩ := c5_unreachable_clamp ⟨0, 0, 0⟩ ⟨1, 0, 0⟩ ⟨0, 0.6, 0⟩ 0.25 0.218
    (by norm_num) (by norm_num) (by norm_num) habs hfar
  exact ⟨⟨by norm_num, by norm_num, by norm_num, habs, hfar⟩, h1, h2⟩

/-! ## C3: mirrored hands -/

theorem mirror_sub (a b : Vec3) : (mirrorX a).sub (mirrorX b) = mirrorX (a.sub b) := by
  ext <;> (unfold mirrorX Vec3.sub; dsimp only; try ring)

theorem mirror_dot (a b : Vec3) : (mirrorX a).dot (mirrorX b) = a.dot b := by
  unfold mirrorX Vec3.dot
  dsimp only
  ring

theorem mirror_lengthSq (v : Vec3) : (mirrorX v).lengthSq = v.lengthSq := by
  unfold Vec3.lengthSq
  exact mirror_dot v v

theorem mirror_length (v : Vec3) : (mirrorX v).length = v.length := by
  unfold Vec3.length
  rw [mirror_lengthSq]

theorem mirror_distanceTo (a b : Vec3) :
    (mirrorX a).distanceTo (mirrorX b) = a.distanceTo b := by
  unfold Vec3.distanceTo
  rw [mirror_sub, mirror_length]

theorem mirror_divideScalar (v : Vec3) (c : ℝ) :
    (mirrorX v).divideScalar c = mirrorX (v.divideScalar c) := by
  ext <;> (unfold mirrorX Vec3.divideScalar; dsimp only; try ring)

theorem mirror_normalize (v : Vec3) : (mirrorX v).normalize = mirrorX v.normalize := by
  unfold Vec3.normalize
  rw [mirror_length, mirror_divideScalar]

theorem measureCurl_mirror (a b c : Vec3) :
    measureCurl (mirrorX a) (mirrorX b) (mirrorX c) = measureCurl a b c := by
  unfold measureCurl
  rw [mirror_distanceTo, mirror_distanceTo, mirror_distanceTo]

theorem measureJointBend_mirror (a b c : Vec3) :
    measureJointBend (mirrorX a) (mirrorX b) (mirrorX c) = measureJointBend a b c := by
  unfold measureJointBend
  rw [mirror_sub, mirror_sub, mirror_normalize, mirror_normalize]
  dsimp only
  rw [mirror_dot]

theorem thumbAbduction_mirror (j : HandJoints) (w tp : Vec3) :
    thumbAbduction (mirrorJoints j) (mirrorX w) (mirrorX tp) = thumbAbduction j w tp := by
  unfold thumbAbduction
  rw [show (mirrorJoints j).indexProximal = j.indexProximal.map mirrorX from rfl,
    show (mirrorJoints j).middleMetacarpal = j.middleMetacarpal.map mirrorX from rfl]
  cases j.indexProximal <;> cases j.middleMetacarpal <;> (dsimp only [Option.map]; try rfl)
  rw [mirror_distanceTo, mirror_distanceTo]

theorem thumbPinchBoost_mirror (j : HandJoints) (tt : Vec3) :
    thumbPinchBoost (mirrorJoints j) (mirrorX tt) = thumbPinchBoost j tt := by
  unfold thumbPinchBoost
  rw [show (mirrorJoints j).indexTip = j.indexTip.map mirrorX from rfl]
  cases j.indexTip <;> (dsimp only [Option.map]; try rfl)
  rw [mirror_distanceTo]

theorem retargetThumb_mirror (j : HandJoints) :
    retargetThumb (mirrorJoints j) = retargetThumb j := by
  unfold retargetThumb
  rw [show (mirrorJoints j).wrist = j.wrist.map mirrorX from rfl,
    show (mirrorJoints j).thumbMetacarpal = j.thumbMetacarpal.map mirrorX from rfl,
    show (mirrorJoints j).thumbProximal = j.thumbProximal.map mirrorX from rfl,
    show (mirrorJoints j).thumbDistal = j.thumbDistal.map mirrorX from rfl,
    show (mirrorJoints j).thumbTip = j.thumbTip.map mirrorX from rfl,
    show (mirrorJoints j).indexMetacarpal = j.indexMetacarpal.map mirrorX from rfl]
  cases j.wrist <;> cases j.thumbMetacarpal <;> cases j.thumbProximal <;>
    cases j.thumbDistal <;> cases j.thumbTip <;> cases j.indexMetacarpal <;>
    (dsimp only [Option.map]; try rfl)
  rw [thumbAbduction_mirror, thumbPinchBoost_mirror]
  simp only [mirror_distanceTo]

theorem retargetIndex_mirror (j : HandJoints) :
    retargetIndex (mirrorJoints j) = retargetIndex j := by
  unfold retargetIndex
  rw [show (mirrorJoints j).indexMetacarpal = j.indexMetacarpal.map mirrorX from rfl,
    show (mirrorJoints j).indexProximal = j.indexProximal.map mirrorX from rfl,
    show (mirrorJoints j).indexIntermediate = j.indexIntermediate.map mirrorX from rfl,
    show (mirrorJoints j).indexDistal = j.indexDistal.map mirrorX from rfl,
    show (mirrorJoints j).indexTip = j.indexTip.map mirrorX from rfl]
  cases j.indexMetacarpal <;> cases j.indexProximal <;> cases j.indexIntermediate <;>
    cases j.indexDistal <;> cases j.indexTip <;> (dsimp only [Option.map]; try rfl)
  rw [measureCurl_mirror, measureJointBend_mirror]

theorem retargetMiddle_mirror (j : HandJoints) :
    retargetMiddle (mirrorJoints j) = retargetMiddle j := by
  unfold retargetMiddle
  rw [show (mirrorJoints j).middleMetacarpal = j.middleMetacarpal.map mirrorX from rfl,
    show (mirrorJoints j).middleProximal = j.middleProximal.map mirrorX from rfl,
    show (mirrorJoints j).middleIntermediate = j.middleIntermediate.map mirrorX from rfl,
    show (mirrorJoints j).middleDistal = j.middleDistal.map mirrorX from rfl,
    show (mirrorJoints j).middleTip = j.middleTip.map mirrorX from rfl]
  cases j.middleMetacarpal <;> cases j.middleProximal <;> cases j.middleIntermediate <;>
    cases j.middleDistal <;> cases j.middleTip <;> (dsimp only [Option.map]; try rfl)
  rw [measureCurl_mirror, measureJointBend_mirror]

/-- `retargetHand` is handedness-agnostic: mirroring every tracked joint
position across the lateral axis leaves the whole `HandShape` unchanged —
all curls AND the abduction (the computation is purely distance/angle
based). -/
theorem retargetHand_mirror (j : Option HandJoints) :
    retargetHand (j.map mirrorJoints) = retargetHand j := by
  cases j with
  | none => rfl
  | some j =>
      show retargetHand (some (mirrorJoints j)) = retargetHand (some j)
      unfold retargetHand
      dsimp only
      rw [retargetThumb_mirror, retargetIndex_mirror, retargetMiddle_mirror]

theorem clamp_neg (x lo hi : ℝ) (h : lo ≤ hi) :
    clamp (-x) (-hi) (-lo) = -(clamp x lo hi) := by
  unfold clamp
  simp only [min_def, max_def]
  split_ifs <;> linarith

/-- The handedness sign flip applied downstream by the earlier
`applyFingerAngles` revision: with mirrored thumb-0 limits the committed
right-hand angle is the exact negation of the left-hand angle. -/
theorem thumb0AngleSigned_mirror (l : JointLimit) (abd : ℝ) (h : l.lower ≤ l.upper) :
    thumb0AngleSigned false ⟨-l.upper, -l.lower⟩ abd =
      -(thumb0AngleSigned true l abd) := by
  unfold thumb0AngleSigned
  dsimp only
  rw [if_pos rfl, if_neg (by simp)]
  rw [abs_neg, abs_neg, min_comm |l.upper| |l.lower|]
  rw [show (-1 : ℝ) * abd * min |l.lower| |l.upper| =
    -(1 * abd * min |l.lower| |l.upper|) from by ring]
  exact clamp_neg _ _ _ h

theorem dist_eval (a b : Vec3) (d : ℝ) (hd : 0 ≤ d)
    (h : (a.x - b.x) * (a.x - b.x) + (a.y - b.y) * (a.y - b.y) +
      (a.z - b.z) * (a.z - b.z) = d ^ 2) :
    a.distanceTo b = d := by
  unfold Vec3.distanceTo Vec3.length Vec3.lengthSq Vec3.sub Vec3.dot
  dsimp only
  rw [h, Real.sqrt_sq hd]

/-- Any hand frame carrying the counterexample's index-proximal and
middle-metacarpal points produces thumb abduction exactly `-1` for the
wrist/thumb-proximal pair used there. -/
theorem thumbAbduction_eval_L (jj : HandJoints)
    (h1 : jj.indexProximal = some ⟨0.06, 0.04, 0⟩)
    (h2 : jj.middleMetacarpal = some ⟨0, 0.1, 0⟩) :
    thumbAbduction jj ⟨0, 0, 0⟩ ⟨0.06, 0, 0⟩ = -1 := by
  unfold thumbAbduction
  rw [h1, h2]
  dsimp only
  have hspan : (Vec3.mk 0 0 0).distanceTo ⟨0, 0.1, 0⟩ = 0.1 :=
    dist_eval _ _ 0.1 (by norm_num) (by norm_num)
  have hti : (Vec3.mk 0.06 0 0).distanceTo ⟨0.06, 0.04, 0⟩ = 0.04 :=
    dist_eval _ _ 0.04 (by norm_num) (by norm_num)
  rw [hspan, hti, if_pos (by norm_num : (0.01 : ℝ) < 0.1)]
  rw [show ((0.04 : ℝ) / 0.1 - 0.75) / 0.35 = -1 from by norm_num]
  unfold clamp
  rw [min_eq_right (by norm_num : (-1 : ℝ) ≤ 1), max_self]

/-- The mirrored version of `thumbAbduction_eval_L`. -/
theorem thumbAbduction_eval_R (jj : HandJoints)
    (h1 : jj.indexProximal = some ⟨-0.06, 0.04, 0⟩)
    (h2 : jj.middleMetacarpal = some ⟨0, 0.1, 0⟩) :
    thumbAbduction jj ⟨0, 0, 0⟩ ⟨-0.06, 0, 0⟩ = -1 := by
  unfold thumbAbduction
  rw [h1, h2]
  dsimp only
  have hspan : (Vec3.mk 0 0 0).distanceTo ⟨0, 0.1, 0⟩ = 0.1 :=
    dist_eval _ _ 0.1 (by norm_num) (by norm_num)
  have hti : (Vec3.mk (-0.06) 0 0).distanceTo ⟨-0.06, 0.04, 0⟩ = 0.04 :=
    dist_eval _ _ 0.04 (by norm_num) (by norm_num)
  rw [hspan, hti, if_pos (by norm_num : (0.01 : ℝ) < 0.1)]
  rw [show ((0.04 : ℝ) / 0.1 - 0.75) / 0.35 = -1 from by norm_num]
  unfold clamp
  rw [min_eq_right (by norm_num : (-1 : ℝ) ≤ 1), max_self]

/-- **C3 counterexample**: `jC3R` is the lateral mirror image of `jC3L`, yet
`retargetHand` produces abduction `-1` for BOTH — identical, not
sign-mirrored (`-1 ≠ -(-1)`).  The HandShape abduction is not flipped by
handedness. -/
theorem c3_counterexample :
    (retargetHand (some jC3L)).thumb.abduction = -1 ∧
      (retargetHand (some jC3R)).thumb.abduction = -1 ∧
      ¬ ((retargetHand (some jC3R)).thumb.abduction =
          -((retargetHand (some jC3L)).thumb.abduction)) := by
  have hL : (retargetHand (some jC3L)).thumb.abduction = -1 := by
    show (retargetThumb jC3L).abduction = -1
    unfold retargetThumb
    rw [show jC3L.wrist = some ⟨0, 0, 0⟩ from rfl,
      show jC3L.thumbMetacarpal = some ⟨0.02, 0, 0⟩ from rfl,
      show jC3L.thumbProximal = some ⟨0.06, 0, 0⟩ from rfl,
      show jC3L.thumbDistal = some ⟨0.06, 0.02, 0⟩ from rfl,
      show jC3L.thumbTip = some ⟨0.06, 0.04, 0⟩ from rfl,
      show jC3L.indexMetacarpal = some ⟨0.08, 0, 0⟩ from rfl]
    dsimp only
    rw [apply_ite ThumbShape.abduction]
    dsimp only
    rw [ite_self]
    exact thumbAbduction_eval_L jC3L rfl rfl
  have hR : (retargetHand (some jC3R)).thumb.abduction = -1 := by
    show (retargetThumb jC3R).abduction = -1
    unfold retargetThumb
    rw [show jC3R.wrist = some ⟨0, 0, 0⟩ from rfl,
      show jC3R.thumbMetacarpal = some ⟨-0.02, 0, 0⟩ from rfl,
      show jC3R.thumbProximal = some ⟨-0.06, 0, 0⟩ from rfl,
      show jC3R.thumbDistal = some ⟨-0.06, 0.02, 0⟩ from rfl,
      show jC3R.thumbTip = some ⟨-0.06, 0.04, 0⟩ from rfl,
      show jC3R.indexMetacarpal = some ⟨-0.08, 0, 0⟩ from rfl]
    dsimp only
    rw [apply_ite ThumbShape.abduction]
    dsimp only
    rw [ite_self]
    exact thumbAbduction_eval_R jC3R rfl rfl
  refine ⟨hL, hR, ?_⟩
  rw [hL, hR]
  norm_num

/-- **C3 amended**: mirrored joint-position inputs produce *identical*
`HandShape` outputs — identical curls and identical (not sign-mirrored)
abduction, since `retargetHand` is handedness-agnostic and purely
distance/angle based.  The handedness sign flip is applied downstream when
the abduction is mapped onto the thumb-0 joint angle (the earlier
`applyFingerAngles` revision multiplies by ±1 per side), where mirrored
joint limits give exactly negated committed angles. -/
theorem c3_amended_mirror :
    (∀ j : Option HandJoints, retargetHand (j.map mirrorJoints) = retargetHand j) ∧
    (∀ (l : JointLimit) (abd : ℝ), l.lower ≤ l.upper →
        thumb0AngleSigned false ⟨-l.upper, -l.lower⟩ abd =
          -(thumb0AngleSigned true l abd)) :=
  ⟨retargetHand_mirror, thumb0AngleSigned_mirror⟩

/-- Witness for the amended C3: the sign-flip conjunct instantiated on
concrete asymmetric limits. -/
theorem c3_amended_witness :
    ((-0.3 : ℝ) ≤ 0.7) ∧
      thumb0AngleSigned false ⟨-0.7, 0.3⟩ 0.5 =
        -(thumb0AngleSigned true ⟨-0.3, 0.7⟩ 0.5) := by
  refine ⟨by norm_num, ?_⟩
  have h := c3_amended_mirror.2 ⟨-0.3, 0.7⟩ 0.5 (by norm_num)
  simpa using h

/-! ## C4: regularization / damping / velocity limiting -/

/-- Clamping into an interval containing `x` cannot move a value farther
from `x`. -/
theorem clamp_interval_dist (x v lo hi : ℝ) (hx1 : lo ≤ x) (hx2 : x ≤ hi) :
    |max lo (min hi v) - x| ≤ |v - x| := by
  rcases le_total x v with hxv | hxv
  · have e1 : x ≤ max lo (min hi v) := le_max_of_le_right (le_min hx2 hxv)
    have e2 : max lo (min hi v) ≤ v := max_le (le_trans hx1 hxv) (min_le_right _ _)
    rw [abs_of_nonneg (by linarith), abs_of_nonneg (by linarith)]
    linarith
  · have e1 : max lo (min hi v) ≤ x := max_le hx1 (le_trans (min_le_right _ _) hxv)
    have e2 : v ≤ max lo (min hi v) := le_max_of_le_right (le_min (le_trans hxv hx2) (le_refl v))
    rw [abs_of_nonpos (by linarith), abs_of_nonpos (by linarith)]
    linarith

theorem abs_clamp_le (v c : ℝ) (hc : 0 ≤ c) : |max (-c) (min c v)| ≤ c := by
  rw [abs_le]
  exact ⟨le_max_left _ _, max_le (by linarith) (min_le_left _ _)⟩

theorem abs_clamp_le_abs (v c : ℝ) (hc : 0 ≤ c) : |max (-c) (min c v)| ≤ |v| := by
  rcases le_total 0 v with hv | hv
  · have h1 : -c ≤ min c v := le_min (by linarith) (by linarith)
    rw [max_eq_right h1, abs_of_nonneg (le_min hc hv)]
    rw [abs_of_nonneg hv]
    exact min_le_right _ _
  · have h1 : min c v = v := min_eq_right (by linarith)
    rw [h1]
    have h2 : max (-c) v ≤ 0 := max_le (by linarith) hv
    rw [abs_of_nonpos h2, abs_of_nonpos hv, neg_le_neg_iff]
    exact le_max_right _ _

/-- **C4 amended**: the earlier part_007 per-joint update applies all three
protections: the committed per-joint angle change never exceeds
`MAX_ANGLE_CHANGE_PER_SOLVE = 0.15` rad; the committed change is bounded by
the raw combined correction minus the regularization pull
`0.005 × currentAngle`, shrunk by `(1 − 0.08) × 0.4 ≈ 0.37`; and with no
geometric correction a sufficiently large in-limits angle is pulled strictly
toward the neutral/zero pose.  The current solver (`src/systems/CCDIK.js`)
applies only a `0.5` damping factor: its committed change is bounded by
`0.5 × |raw|` but is neither regularized nor clamped to `±0.15` (see the
counterexample). -/
theorem c4_amended_regularization_damping :
    (∀ (n : ℕ) (sc : Scene n) (tp : Vec3) (tq : Quat) (i : Fin n) (s : JState n),
        limitLower (sc.joints i) ≤ s i → s i ≤ limitUpper (sc.joints i) →
        |CCDIK7.jointStep sc tp tq i s i - s i| ≤ CCDIK7.maxAngleChangePerSolve) ∧
    (∀ (n : ℕ) (sc : Scene n) (tp : Vec3) (tq : Quat) (i : Fin n) (s : JState n),
        limitLower (sc.joints i) ≤ s i → s i ≤ limitUpper (sc.joints i) →
        |CCDIK7.jointStep sc tp tq i s i - s i| ≤
          0.4 * (1 - CCDIK7.smoothWeight) *
            |CCDIK7.rawCorrection sc tp tq i s - s i * CCDIK7.regularizationWeight|) ∧
    (∀ (n : ℕ) (sc : Scene n) (tp : Vec3) (tq : Quat) (i : Fin n) (s : JState n),
        CCDIK7.rawCorrection sc tp tq i s = 0 →
        limitLower (sc.joints i) ≤ s i → s i ≤ limitUpper (sc.joints i) →
        limitLower (sc.joints i) ≤ 0 → 0 ≤ limitUpper (sc.joints i) →
        0.06 ≤ |s i| →
        |CCDIK7.jointStep sc tp tq i s i| < |s i|) ∧
    (∀ (n : ℕ) (sc : Scene n) (tp : Vec3) (tq : Quat) (i : Fin n) (s : JState n),
        limitLower (sc.joints i) ≤ s i → s i ≤ limitUpper (sc.joints i) →
        |CCDIK.jointStep sc tp tq i s i - s i| ≤
          0.5 * |CCDIK.rawCorrection sc tp tq i s|) := by
  refine ⟨?_, ?_, ?_, ?_⟩
  · intro n sc tp tq i s h1 h2
    unfold CCDIK7.jointStep
    dsimp only
    split_ifs
    · rw [sub_self, abs_zero]
      unfold CCDIK7.maxAngleChangePerSolve
      norm_num
    · rw [Function.update_same]
      refine le_trans (clamp_interval_dist (s i) _ _ _ h1 h2) ?_
      rw [add_sub_cancel_left]
      exact abs_clamp_le _ _ (by unfold CCDIK7.maxAngleChangePerSolve; norm_num)
  · intro n sc tp tq i s h1 h2
    unfold CCDIK7.jointStep
    dsimp only
    split_ifs
    · rw [sub_self, abs_zero]
      unfold CCDIK7.smoothWeight
      positivity
    · rw [Function.update_same]
      refine le_trans (clamp_interval_dist (s i) _ _ _ h1 h2) ?_
      rw [add_sub_cancel_left]
      refine le_trans (abs_clamp_le_abs _ _
        (by unfold CCDIK7.maxAngleChangePerSolve; norm_num)) ?_
      rw [abs_mul, abs_mul]
      unfold CCDIK7.smoothWeight
      rw [abs_of_nonneg (by norm_num : (0 : ℝ) ≤ 1 - 0.08),
        abs_of_nonneg (by norm_num : (0 : ℝ) ≤ (0.4 : ℝ))]
      exact le_of_eq (by ring)
  · intro n sc tp tq i s hraw h1 h2 hlo hhi hbig
    unfold CCDIK7.jointStep
    dsimp only
    rw [hraw]
    have hdel : (0 - s i * CCDIK7.regularizationWeight) * (1 - CCDIK7.smoothWeight) * 0.4 =
        -(s i * 0.00184) := by
      unfold CCDIK7.regularizationWeight CCDIK7.smoothWeight
      ring
    rw [hdel]
    have habsdel : |(-(s i * 0.00184))| = |s i| * 0.00184 := by
      rw [abs_neg, abs_mul]
      norm_num
    rw [if_neg (by rw [habsdel]; intro hcon; nlinarith)]
    rw [Function.update_same]
    unfold CCDIK7.maxAngleChangePerSolve
    rcases le_or_lt 0 (s i) with hxpos | hxneg
    · have hx : 0.06 ≤ s i := by
        rwa [abs_of_nonneg hxpos] at hbig
      have hmin : min 0.15 (-(s i * 0.00184)) = -(s i * 0.00184) :=
        min_eq_right (by nlinarith)
      rw [hmin]
      rcases le_total (-0.15) (-(s i * 0.00184)) with hcase | hcase
      · rw [max_eq_right hcase]
        have hval1 : 0 < s i + -(s i * 0.00184) := by nlinarith
        have hval2 : s i + -(s i * 0.00184) < s i := by nlinarith
        rw [min_eq_right (by linarith), max_eq_right (by linarith)]
        rw [abs_of_pos hval1, abs_of_nonneg hxpos]
        linarith
      · rw [max_eq_left hcase]
        have hxbig : 81 ≤ s i := by nlinarith
        have hval1 : 0 < s i + -0.15 := by nlinarith
        have hval2 : s i + -0.15 < s i := by nlinarith
        rw [min_eq_right (by linarith), max_eq_right (by linarith)]
        rw [abs_of_pos hval1, abs_of_nonneg hxpos]
        linarith
    · have hx : s i ≤ -0.06 := by
        rw [abs_of_neg hxneg] at hbig
        linarith
      rcases le_total (-(s i * 0.00184)) 0.15 with hcase | hcase
      · rw [min_eq_right hcase,
          max_eq_right (show (-0.15 : ℝ) ≤ -(s i * 0.00184) from by nlinarith)]
        have hval1 : s i + -(s i * 0.00184) < 0 := by nlinarith
        have hval2 : s i < s i + -(s i * 0.00184) := by nlinarith
        rw [min_eq_right (by linarith), max_eq_right (by linarith)]
        rw [abs_of_neg hval1, abs_of_neg hxneg]
        linarith
      · rw [min_eq_left hcase,
          max_eq_right (show (-0.15 : ℝ) ≤ 0.15 from by norm_num)]
        have hxbig : s i ≤ -81 := by nlinarith
        have hval1 : s i + 0.15 < 0 := by nlinarith
        have hval2 : s i < s i + 0.15 := by nlinarith
        rw [min_eq_right (by linarith), max_eq_right (by linarith)]
        rw [abs_of_neg hval1, abs_of_neg hxneg]
        linarith
  · intro n sc tp tq i s h1 h2
    unfold CCDIK.jointStep
    dsimp only
    split_ifs
    · rw [sub_self, abs_zero]
      positivity
    · rw [Function.update_same]
      refine le_trans (clamp_interval_dist (s i) _ _ _ h1 h2) ?_
      rw [add_sub_cancel_left, abs_mul]
      rw [abs_of_nonneg (by norm_num : (0 : ℝ) ≤ (0.5 : ℝ))]
      exact le_of_eq (mul_comm _ _)

theorem length_eval (v : Vec3) (d : ℝ) (hd : 0 ≤ d)
    (h : v.x * v.x + v.y * v.y + v.z * v.z = d ^ 2) : v.length = d := by
  unfold Vec3.length Vec3.lengthSq Vec3.dot
  rw [h, Real.sqrt_sq hd]

theorem conjugate_one : Quat.one.conjugate = Quat.one := by
  unfold Quat.conjugate Quat.one
  ext <;> norm_num

theorem applyQuaternion_one (v : Vec3) : v.applyQuaternion Quat.one = v := by
  unfold Vec3.applyQuaternion Quat.one Vec3.cross Vec3.smul Vec3.add
  ext <;> (dsimp only; ring)

theorem jsAtan2_one_zero : jsAtan2 1 0 = Real.pi / 2 := by
  unfold jsAtan2
  rw [if_neg (by norm_num), if_neg (by norm_num), if_pos (by norm_num)]

theorem jsSign_one : jsSign 1 = 1 := by
  unfold jsSign
  rw [if_pos (by norm_num)]

/-- On the concrete one-joint scene the position contribution of the single
joint visit is a `π/2` swing times the position weight. -/
theorem posContrib_demo (i : Fin 1) (s : JState 1) (w : ℝ) :
    CCDIK.positionContribution demoScene ⟨0, 1, 0⟩ i s w = Real.pi / 2 * w := by
  unfold CCDIK.positionContribution demoScene
  dsimp only
  rw [show (Vec3.mk 1 0 0).sub ⟨0, 0, 0⟩ = ⟨1, 0, 0⟩ from by
    ext <;> (unfold Vec3.sub; dsimp only; norm_num)]
  rw [show (Vec3.mk 0 1 0).sub ⟨0, 0, 0⟩ = ⟨0, 1, 0⟩ from by
    ext <;> (unfold Vec3.sub; dsimp only; norm_num)]
  rw [length_eval ⟨1, 0, 0⟩ 1 (by norm_num) (by norm_num)]
  rw [length_eval ⟨0, 1, 0⟩ 1 (by norm_num) (by norm_num)]
  rw [if_pos (⟨by norm_num, by norm_num⟩ : (1e-6 : ℝ) < 1 ∧ (1e-6 : ℝ) < 1)]
  rw [show (Vec3.mk 1 0 0).divideScalar 1 = ⟨1, 0, 0⟩ from by
    ext <;> (unfold Vec3.divideScalar; dsimp only; norm_num)]
  rw [show (Vec3.mk 0 1 0).divideScalar 1 = ⟨0, 1, 0⟩ from by
    ext <;> (unfold Vec3.divideScalar; dsimp only; norm_num)]
  rw [show (Vec3.mk 1 0 0).cross ⟨0, 1, 0⟩ = ⟨0, 0, 1⟩ from by
    ext <;> (unfold Vec3.cross; dsimp only; norm_num)]
  rw [length_eval ⟨0, 0, 1⟩ 1 (by norm_num) (by norm_num)]
  rw [show (Vec3.mk 1 0 0).dot ⟨0, 1, 0⟩ = 0 from by unfold Vec3.dot; norm_num]
  rw [if_pos (by norm_num : (1e-6 : ℝ) < 1)]
  rw [show (Vec3.mk 0 0 1).divideScalar 1 = ⟨0, 0, 1⟩ from by
    ext <;> (unfold Vec3.divideScalar; dsimp only; norm_num)]
  rw [conjugate_one, applyQuaternion_one]
  rw [show (Vec3.mk 0 0 1).dot ⟨0, 0, 1⟩ = 1 from by unfold Vec3.dot; norm_num]
  rw [if_pos (by rw [abs_one]; norm_num : (0.01 : ℝ) < |(1 : ℝ)|)]
  rw [jsAtan2_one_zero, jsSign_one]
  ring

/-- On the concrete scene the raw combined correction of the single joint is
exactly `π/2` (orientation weight is zero for a one-joint chain). -/
theorem rawCorrection_demo (s : JState 1) :
    CCDIK.rawCorrection demoScene ⟨0, 1, 0⟩ Quat.one 0 s = Real.pi / 2 := by
  unfold CCDIK.rawCorrection
  dsimp only
  rw [if_neg (by norm_num : ¬ (1 : ℕ) < 1)]
  rw [posContrib_demo]
  rw [if_neg (by norm_num : ¬ (0.01 : ℝ) < 0 * 0.8)]
  norm_num

/-- **C4 counterexample**: on a concrete one-joint scene a single
`solveCCDIK` call (one outer iteration) commits an angle change of `π/4`
(the raw `π/2` correction damped by `0.5`) — far above `0.15` rad and with
no regularization term — so the current solver does not clamp the per-step
angle change to `±0.15` rad. -/
theorem c4_counterexample :
    CCDIK.solveCCDIK demoScene ⟨0, 1, 0⟩ Quat.one 1 (zeroState 1) 0 = Real.pi / 4 ∧
      0.15 < Real.pi / 4 := by
  have hpi := Real.pi_gt_three
  have hnotconv : ¬ ((demoScene.endPos (zeroState 1)).distanceTo ⟨0, 1, 0⟩ < 0.003 ∧
      (demoScene.endQuat (zeroState 1)).angleTo Quat.one < 0.03) := by
    rintro ⟨hc, -⟩
    have h2 : (demoScene.endPos (zeroState 1)).distanceTo ⟨0, 1, 0⟩ = Real.sqrt 2 := by
      show (Vec3.mk 1 0 0).distanceTo ⟨0, 1, 0⟩ = Real.sqrt 2
      unfold Vec3.distanceTo Vec3.sub Vec3.length Vec3.lengthSq Vec3.dot
      norm_num
    rw [h2] at hc
    have hge : (1 : ℝ) ≤ Real.sqrt 2 := by
      rw [show (1 : ℝ) = Real.sqrt 1 from (Real.sqrt_one).symm]
      exact Real.sqrt_le_sqrt (by norm_num)
    linarith
  constructor
  · show CCDIK.solveCCDIK demoScene ⟨0, 1, 0⟩ Quat.one (0 + 1) (zeroState 1) 0 =
      Real.pi / 4
    rw [CCDIK.solveCCDIK, if_neg hnotconv, CCDIK.solveCCDIK]
    unfold CCDIK.sweep
    rw [show (List.finRange 1).reverse = [(0 : Fin 1)] from by decide]
    rw [List.foldl_cons, List.foldl_nil]
    unfold CCDIK.jointStep
    dsimp only
    rw [rawCorrection_demo]
    rw [show Real.pi / 2 * 0.5 = Real.pi / 4 from by ring]
    rw [if_neg (by rw [abs_of_pos (by linarith)]; intro hcon; linarith)]
    rw [Function.update_same]
    rw [show demoScene.joints 0 = ⟨⟨0, 0, 1⟩, none⟩ from rfl]
    unfold limitLower limitUpper
    dsimp only
    rw [show zeroState 1 0 = 0 from rfl, zero_add]
    rw [min_eq_right (by linarith : Real.pi / 4 ≤ Real.pi)]
    rw [max_eq_right (by linarith : -Real.pi ≤ Real.pi / 4)]
  · linarith

/-- On the 7-joint constant scene with the end effector already at the joint
positions, the part_007 raw correction of the root joint is zero. -/
theorem rawCorrection7_demo7 :
    CCDIK7.rawCorrection demoScene7 ⟨1, 1, 1⟩ Quat.one 0 (fun _ => 0.1) = 0 := by
  unfold CCDIK7.rawCorrection CCDIK7.positionContribution demoScene7
  dsimp only
  rw [show (Vec3.mk 0 0 0).sub ⟨0, 0, 0⟩ = ⟨0, 0, 0⟩ from by
    ext <;> (unfold Vec3.sub; dsimp only; norm_num)]
  rw [length_eval ⟨0, 0, 0⟩ 0 (by norm_num) (by norm_num)]
  rw [if_neg (by rintro ⟨hcon, -⟩; norm_num at hcon)]
  rw [if_pos (by norm_num : (1 : ℕ) < 7)]
  rw [show ((0 : Fin 7) : ℝ) = 0 from by norm_num]
  rw [if_neg (by norm_num : ¬ (0.001 : ℝ) < 0 / (((7 : ℕ) : ℝ) - 1) * 0.15)]
  norm_num

/-- Witness for the amended C4: the three part_007 protections and the
current solver's damping bound instantiated on concrete scenes. -/
theorem c4_amended_witness :
    (limitLower (demoScene.joints 0) ≤ zeroState 1 0 ∧
      zeroState 1 0 ≤ limitUpper (demoScene.joints 0) ∧
      |CCDIK7.jointStep demoScene ⟨0, 1, 0⟩ Quat.one 0 (zeroState 1) 0 - zeroState 1 0| ≤
        CCDIK7.maxAngleChangePerSolve ∧
      |CCDIK.jointStep demoScene ⟨0, 1, 0⟩ Quat.one 0 (zeroState 1) 0 - zeroState 1 0| ≤
        0.5 * |CCDIK.rawCorrection demoScene ⟨0, 1, 0⟩ Quat.one 0 (zeroState 1)|) ∧
    (CCDIK7.rawCorrection demoScene7 ⟨1, 1, 1⟩ Quat.one 0 (fun _ => 0.1) = 0 ∧
      (0.06 : ℝ) ≤ |(0.1 : ℝ)| ∧
      |CCDIK7.jointStep demoScene7 ⟨1, 1, 1⟩ Quat.one 0 (fun _ => (0.1 : ℝ)) 0| <
        |(0.1 : ℝ)|) := by
  have hpi := Real.pi_pos
  have hlo : limitLower (demoScene.joints 0) ≤ zeroState 1 0 := by
    rw [show demoScene.joints 0 = ⟨⟨0, 0, 1⟩, none⟩ from rfl]
    unfold limitLower
    dsimp only
    show -Real.pi ≤ 0
    linarith
  have hhi : zeroState 1 0 ≤ limitUpper (demoScene.joints 0) := by
    rw [show demoScene.joints 0 = ⟨⟨0, 0, 1⟩, none⟩ from rfl]
    unfold limitUpper
    dsimp only
    show (0 : ℝ) ≤ Real.pi
    linarith
  have hlo7 : limitLower (demoScene7.joints 0) ≤ (fun _ : Fin 7 => (0.1 : ℝ)) 0 := by
    rw [show demoScene7.joints 0 = ⟨⟨0, 0, 1⟩, some ⟨-2, 2⟩⟩ from rfl]
    unfold limitLower
    norm_num
  have hhi7 : (fun _ : Fin 7 => (0.1 : ℝ)) 0 ≤ limitUpper (demoScene7.joints 0) := by
    rw [show demoScene7.joints 0 = ⟨⟨0, 0, 1⟩, some ⟨-2, 2⟩⟩ from rfl]
    unfold limitUpper
    norm_num
  have hlo70 : limitLower (demoScene7.joints 0) ≤ 0 := by
    rw [show demoScene7.joints 0 = ⟨⟨0, 0, 1⟩, some ⟨-2, 2⟩⟩ from rfl]
    unfold limitLower
    norm_num
  have hhi70 : (0 : ℝ) ≤ limitUpper (demoScene7.joints 0) := by
    rw [show demoScene7.joints 0 = ⟨⟨0, 0, 1⟩, some ⟨-2, 2⟩⟩ from rfl]
    unfold limitUpper
    norm_num
  have habs : (0.06 : ℝ) ≤ |(0.1 : ℝ)| := by
    rw [abs_of_nonneg (by norm_num : (0 : ℝ) ≤ 0.1)]
    norm_num
  refine ⟨⟨hlo, hhi, ?_, ?_⟩, rawCorrection7_demo7, habs, ?_⟩
  · exact c4_amended_regularization_damping.1 1 demoScene ⟨0, 1, 0⟩ Quat.one 0
      (zeroState 1) hlo hhi
  · exact c4_amended_regularization_damping.2.2.2 1 demoScene ⟨0, 1, 0⟩ Quat.one 0
      (zeroState 1) hlo hhi
  · have h := c4_amended_regularization_damping.2.2.1 7 demoScene7 ⟨1, 1, 1⟩ Quat.one 0
      (fun _ => 0.1) rawCorrection7_demo7 hlo7 hhi7 hlo70 hhi70
      (by rw [show (fun _ : Fin 7 => (0.1 : ℝ)) 0 = 0.1 from rfl]; exact habs)
    simpa using h

/-! ## C8: tracking-loss reset behaviour -/

/-- A spring-damper that was just reset onto a sample returns that sample
exactly on the next update (zero displacement, zero velocity). -/
theorem spring_snap (f : SpringDamper) (p : Vec3) (dt : ℝ) :
    ((f.reset (some p)).update p dt).1 = p := by
  unfold SpringDamper.reset SpringDamper.update
  dsimp only
  ext <;> (simp only [Vec3.sub, Vec3.smul, Vec3.add, Vec3.divideScalar,
            Vec3.addScaledVector]; ring)

/-- Slerping a unit quaternion toward itself returns it unchanged (the
`cosHalfTheta >= 1` early-out). -/
theorem slerp_self (q : Quat) (h : q.lengthSq = 1) (t : ℝ) : q.slerp q t = q := by
  by_cases ht0 : t = 0
  · unfold Quat.slerp
    rw [if_pos ht0]
  · by_cases ht1 : t = 1
    · unfold Quat.slerp
      rw [if_neg ht0, if_pos ht1]
    · unfold Quat.slerp
      rw [if_neg ht0, if_neg ht1]
      dsimp only
      rw [show q.dot q = (1 : ℝ) from h]
      norm_num

/-- **C8 amended**: on loss of a hand's wrist tracking the controller resets
that hand's wrist impedance filters (spring-damper position and slerp
orientation) and clears `hadHand`, but does NOT reset the hand's finger
`RetargetingFilter`; the other hand's state is untouched.  Consequently the
first filtered wrist output after reappearance equals the new raw wrist
sample exactly, while the first finger-shape output is still an
interpolation from the stale pre-loss shape (see the counterexample). -/
theorem c8_amended_reset_behaviour :
    (∀ (dt : ℝ) (st : TrackState), st.hadHand = true →
        (handTick dt none st).2.impedance.wristPos.pos = none ∧
        (handTick dt none st).2.impedance.wristPos.vel = ⟨0, 0, 0⟩ ∧
        (handTick dt none st).2.impedance.wristQuat.value = none ∧
        (handTick dt none st).2.hadHand = false ∧
        (handTick dt none st).2.retarget = st.retarget) ∧
    (∀ (dt : ℝ) (inp : HandInput) (st : TrackState), st.hadHand = false →
        inp.wristQuat.lengthSq = 1 →
        ((handTick dt (some inp) st).1).map TickOutput.smoothPos = some inp.wristPos ∧
        ((handTick dt (some inp) st).1).map TickOutput.smoothQuat = some inp.wristQuat) ∧
    (∀ (dt : ℝ) (inL inR : Option HandInput) (stL stR : TrackState),
        bothHandsTick dt inL inR stL stR = (handTick dt inL stL, handTick dt inR stR)) := by
  refine ⟨?_, ?_, fun _ _ _ _ _ => rfl⟩
  · intro dt st h
    unfold handTick
    rw [h]
    exact ⟨rfl, rfl, rfl, rfl, rfl⟩
  · intro dt inp st h hq
    unfold handTick
    rw [h]
    dsimp only
    constructor
    · show some (((st.impedance.wristPos.reset none).reset
        (some inp.wristPos)).update inp.wristPos (min dt 0.05)).1 = some inp.wristPos
      rw [spring_snap]
    · show some (((st.impedance.wristQuat.reset none).reset
        (some inp.wristQuat)).update inp.wristQuat).1 = some inp.wristQuat
      unfold QuaternionSmoother.reset QuaternionSmoother.update
      dsimp only
      rw [slerp_self inp.wristQuat hq]

/-- Witness for the C8 amended theorem: on a concrete tracked state a
tracking-loss tick clears the spring-damper position, and after a frame with
`hadHand = false` the first smoothed wrist position equals the raw sample. -/
theorem c8_amended_witness :
    (handTick 0.02 none ⟨HandImpedance.mk0, RetargetingFilter.mk0 0.18, true⟩).2.impedance.wristPos.pos = none ∧
    ((handTick 0.02 (some inputA) TrackState.init).1).map TickOutput.smoothPos =
      some inputA.wristPos := by
  constructor
  · exact (c8_amended_reset_behaviour.1 0.02
      ⟨HandImpedance.mk0, RetargetingFilter.mk0 0.18, true⟩ rfl).1
  · exact (c8_amended_reset_behaviour.2.1 0.02 inputA TrackState.init rfl
      (by show ((⟨0, 0, 0, 1⟩ : Quat)).lengthSq = 1
          unfold Quat.lengthSq Quat.dot
          norm_num)).1

/-- **C8 counterexample**: run tracked → absent (one tick) → tracked at a new
pose.  After the absent tick the `RetargetingFilter` still holds the stale
pre-loss shape (`last = some HandShape.zero`, not `none`), so the first
post-reacquisition finger output is the interpolation `0.18` from the stale
shape toward the new raw curl `1` — not the raw sample `1` itself, refuting
the claim that the retargeting filter state is reset on tracking loss. -/
theorem c8_counterexample :
    ((handTick 0.02 none (handTick 0.02 (some inputA) TrackState.init).2).2).retarget.last
      = some HandShape.zero ∧
    (retargetHand (some jCurl)).index.curl0 = 1 ∧
    ((handTick 0.02 (some inputB)
        (handTick 0.02 none (handTick 0.02 (some inputA) TrackState.init).2).2).1).map
      (fun o => o.shape.index.curl0) = some 0.18 ∧
    (0.18 : ℝ) ≠ 1 := by
  have hcurl : (retargetHand (some jCurl)).index.curl0 = 1 := by
    show measureCurl ⟨0, 0, 0⟩ ⟨0, 0.03, 0⟩ ⟨0, 0.01, 0⟩ = 1
    unfold measureCurl
    dsimp only
    rw [dist_eval ⟨0, 0, 0⟩ ⟨0, 0.03, 0⟩ 0.03 (by norm_num) (by norm_num),
        dist_eval ⟨0, 0.03, 0⟩ ⟨0, 0.01, 0⟩ 0.02 (by norm_num) (by norm_num),
        dist_eval ⟨0, 0, 0⟩ ⟨0, 0.01, 0⟩ 0.01 (by norm_num) (by norm_num)]
    rw [if_neg (by norm_num : ¬ (0.03 + 0.02 : ℝ) < 0.001)]
    unfold clamp
    rw [show ((0.92 - 0.01 / (0.03 + 0.02)) / 0.60 : ℝ) = 1.2 from by norm_num,
        min_eq_left (by norm_num : (1 : ℝ) ≤ 1.2),
        max_eq_right (by norm_num : (0 : ℝ) ≤ 1)]
  refine ⟨rfl, hcurl, ?_, by norm_num⟩
  have hstep : ((handTick 0.02 (some inputB)
      (handTick 0.02 none (handTick 0.02 (some inputA) TrackState.init).2).2).1).map
      (fun o => o.shape.index.curl0)
      = some (lerp1 0 ((retargetHand (some jCurl)).index.curl0) 0.18) := rfl
  rw [hstep, hcurl]
  unfold lerp1
  norm_num

end IAR
